import Mathlib

/-!
Verification development for the `populate_db.py` ETL pipeline.

The script loads four tab-separated source files into a Postgres star
schema: staging tables, ten dimension tables, two entity tables
(`anime`, `users`) and two fact tables (`anime_genres`,
`user_anime_ratings`).  We model every table as a Lean list of typed
rows, SQL `NULL` as `Option.none`, and a `SERIAL` surrogate key as the
1-based position of the natural value inside its dimension list
(insertion order; `ON CONFLICT DO NOTHING` never moves a row, so
positions are stable).  A fatal SQL error (failed cast, NOT NULL
violation) is an `Except.error`; `TIMESTAMP` values are carried as
opaque text since no stage inspects them.
-/

/-- Errors raised by the pipeline, following the spec's taxonomy:
`FileNotFoundError` in `load_tsv_to_stage` is `MissingSourceFile`, the
`ValueError` listing absent header columns is `SchemaMismatch`, a failed
`::INTEGER` / `::REAL` cast is `ValueCoercionError`, and inserting SQL
`NULL` into a `NOT NULL` column is `NotNullViolation`. -/
inductive ETLError where
  | MissingSourceFile : ETLError
  | SchemaMismatch : List String → ETLError
  | ValueCoercionError : ETLError
  | NotNullViolation : ETLError
deriving DecidableEq

/-- One parsed record of a delimited file, as produced per row by
`csv.DictReader`: an association of column name to field text. -/
abbrev TsvRecord := List (String × String)

/-- A delimited source file after parsing: the header row and the data
records (`csv.DictReader` zips each data row with the header). -/
structure TsvFile where
  fieldnames : List String
  records : List TsvRecord
deriving DecidableEq

/-- Field access `row.get(c, None)` on a `DictReader` record. -/
def record_get (r : TsvRecord) (c : String) : Option String :=
  List.lookup c r

/-- Row of staging table `stage_anime` (all columns `TEXT` except the
two `TIMESTAMP` dates, which we carry as opaque text).  `Type'` stands
for the source column `Type`, a reserved word in Lean. -/
structure StageAnimeRow where
  AnimeID : Option String
  AnimeTitle : Option String
  Type' : Option String
  Episodes : Option String
  Status : Option String
  StartDate : Option String
  EndDate : Option String
  Source : Option String
  StudioName : Option String
  RatingCategory : Option String
  OverallScore : Option String
  PopularityRank : Option String
deriving DecidableEq

/-- Row of staging table `stage_genres`. -/
structure StageGenreRow where
  AnimeID : Option String
  GenreName : Option String
deriving DecidableEq

/-- Row of staging table `stage_users`. -/
structure StageUserRow where
  UserID : Option String
  UserName : Option String
  Country : Option String
  AgeGroup : Option String
  Gender : Option String
deriving DecidableEq

/-- Row of staging table `stage_ratings`. -/
structure StageRatingRow where
  UserID : Option String
  AnimeID : Option String
  UserScore : Option String
  RatingDate : Option String
  WatchStatus : Option String
deriving DecidableEq

/-- The four staging tables. -/
structure Staging where
  stage_anime : List StageAnimeRow
  stage_genres : List StageGenreRow
  stage_users : List StageUserRow
  stage_ratings : List StageRatingRow
deriving DecidableEq

/-- A stored value of Postgres type `real` (`float4`).  `float4in`
accepts, besides finite numeric literals, the special spellings
`Infinity`/`inf` and `NaN` (case-insensitive), so the warehouse columns
can hold them.  The finite payload carries the literal's exact rational
value: no pipeline stage branches on a stored score's magnitude, so
`float4`'s rounding of an accepted in-range value to 24 significand
bits is unobservable in the model (the in-range check itself is exact,
see `pg_real_in_range`). -/
inductive PgReal where
  | finite : Rat → PgReal
  | inf : PgReal
  | neginf : PgReal
  | nan : PgReal
deriving DecidableEq

/-- Negation of a `real` value, used for a leading minus sign. -/
def PgReal.negate : PgReal → PgReal
  | .finite q => .finite (-q)
  | .inf => .neginf
  | .neginf => .inf
  | .nan => .nan

/-- Row of entity table `anime`; each `*_id` column is a nullable
foreign key into a dimension (a 1-based position), null when the source
value was absent or unmatched. -/
structure AnimeRow where
  anime_id : String
  title : String
  type_id : Option Nat
  status_id : Option Nat
  episodes : Option Int
  start_date : Option String
  end_date : Option String
  source_id : Option Nat
  studio_id : Option Nat
  rating_category_id : Option Nat
  overall_score : Option PgReal
  popularity_rank : Option Int
deriving DecidableEq

/-- Row of entity table `users`. -/
structure UserRow where
  user_id : String
  user_name : String
  country_id : Option Nat
  age_group_id : Option Nat
  gender_id : Option Nat
deriving DecidableEq

/-- Row of fact table `anime_genres` (both columns `NOT NULL`). -/
structure GenreFactRow where
  anime_id : String
  genre_id : Nat
deriving DecidableEq

/-- Row of fact table `user_anime_ratings`; `watch_status_id` is
declared nullable in the schema, hence `Option Nat` here. -/
structure RatingRow where
  user_id : String
  anime_id : String
  user_score : Option PgReal
  rating_date : Option String
  watch_status_id : Option Nat
deriving DecidableEq

/-- The warehouse: ten dimension tables (each a list of natural values,
surrogate key = 1-based position), two entity tables, two fact tables. -/
structure Warehouse where
  anime_types : List String
  anime_statuses : List String
  studios : List String
  sources : List String
  rating_categories : List String
  genres : List String
  countries : List String
  age_groups : List String
  genders : List String
  watch_statuses : List String
  anime : List AnimeRow
  users : List UserRow
  anime_genres : List GenreFactRow
  user_anime_ratings : List RatingRow
deriving DecidableEq

/-- The warehouse right after `STAGING_CREATE_SQL` dropped and recreated
every table: all fourteen tables empty. -/
def emptyWarehouse : Warehouse :=
  ⟨[], [], [], [], [], [], [], [], [], [], [], [], [], []⟩

/-- Value of a digit string, most significant first. -/
def digitsToNat (ds : List Char) : Nat :=
  ds.foldl (fun n c => 10 * n + (c.toNat - Char.toNat '0')) 0

/-- Whitespace the Postgres numeric input functions skip around a
literal: C `isspace` in the C locale. -/
def pg_isspace (c : Char) : Bool :=
  c == ' ' || c == '\t' || c == '\n' || c == '\x0b' || c == '\x0c' || c == '\r'

/-- Hexadecimal digit test, for the hexadecimal float form of
`strtof`. -/
def pg_isHexDigit (c : Char) : Bool :=
  c.isDigit || ('a' ≤ c && c ≤ 'f') || ('A' ≤ c && c ≤ 'F')

/-- Value of one hexadecimal digit. -/
def hexDigitToNat (c : Char) : Nat :=
  if c.isDigit then c.toNat - Char.toNat '0'
  else if 'a' ≤ c && c ≤ 'f' then c.toNat - Char.toNat 'a' + 10
  else c.toNat - Char.toNat 'A' + 10

/-- Value of a hexadecimal digit string, most significant first. -/
def hexDigitsToNat (ds : List Char) : Nat :=
  ds.foldl (fun n c => 16 * n + hexDigitToNat c) 0

/-- Smallest positive magnitude that rounds to `float4` infinity:
`2^128 - 2^103`, the round-to-nearest-even boundary just above the
largest finite `float4` (`2^128 - 2^104`).  `strtof` overflows at and
beyond it, and `float4in` then raises `value out of range`. -/
def float4_overflow_boundary : Rat := mkRat (Int.ofNat (2 ^ 128 - 2 ^ 103)) 1

/-- Largest positive magnitude that rounds to zero: `2^-150`, the
round-to-nearest-even boundary just below the smallest subnormal
`float4` (`2^-149`).  A nonzero literal at or below it underflows to
zero and `float4in` raises `value out of range`; subnormal results
above it are accepted. -/
def float4_underflow_boundary : Rat := mkRat 1 (2 ^ 150)

/-- Absolute value of a rational. -/
def rat_abs (v : Rat) : Rat := if v < 0 then -v else v

/-- Range check `float4in` performs on a finite parsed value: reject a
nonzero value whose `float4` rounding would be zero or infinite, accept
everything else. -/
def pg_real_in_range (v : Rat) : Option PgReal :=
  if v = 0 then some (.finite 0)
  else if float4_overflow_boundary ≤ rat_abs v then none
  else if rat_abs v ≤ float4_underflow_boundary then none
  else some (.finite v)

/-- Value and range check of a parsed decimal mantissa and exponent
(integer digits, fraction digits, decimal exponent).  The two coarse
exponent guards only avoid building astronomically large exact
rationals; on every input they decide they agree with
`pg_real_in_range` (a nonzero mantissa with decimal exponent above 100
exceeds `2^128`, one whose total magnitude is below `10^-100` is under
`2^-150`). -/
def pg_decimal_value (intDs fracDs : List Char) (ex : Int) : Option PgReal :=
  let n : Nat := digitsToNat (intDs ++ fracDs)
  let e : Int := ex - fracDs.length
  if n = 0 then some (.finite 0)
  else if 100 < e then none
  else if e + (intDs.length + fracDs.length : Int) < -100 then none
  else
    let v : Rat :=
      if 0 ≤ e then mkRat (Int.ofNat (n * 10 ^ e.toNat)) 1
      else mkRat (Int.ofNat n) (10 ^ (-e).toNat)
    pg_real_in_range v

/-- Value and range check of a parsed hexadecimal mantissa and binary
exponent, with the analogous coarse guards. -/
def pg_hex_value (intDs fracDs : List Char) (ex : Int) : Option PgReal :=
  let n : Nat := hexDigitsToNat (intDs ++ fracDs)
  let e : Int := ex - 4 * fracDs.length
  if n = 0 then some (.finite 0)
  else if 200 < e then none
  else if e + 4 * (intDs.length + fracDs.length : Int) < -200 then none
  else
    let v : Rat :=
      if 0 ≤ e then mkRat (Int.ofNat (n * 2 ^ e.toNat)) 1
      else mkRat (Int.ofNat n) (2 ^ (-e).toNat)
    pg_real_in_range v

/-- Exponent tail of a numeric literal (the part after `e`/`E`/`p`/`P`):
an optionally signed nonempty digit string, followed only by
whitespace.  An empty or malformed tail makes the whole literal invalid
(the input function finds leftover characters and raises). -/
def parse_exponent_rest (cs : List Char) : Option Int :=
  let signed : Bool × List Char :=
    match cs with
    | '+' :: r => (false, r)
    | '-' :: r => (true, r)
    | r => (false, r)
  let ds := signed.2.takeWhile Char.isDigit
  if ds.isEmpty then none
  else if !((signed.2.drop ds.length).all pg_isspace) then none
  else some (if signed.1 then -(digitsToNat ds : Int) else (digitsToNat ds : Int))

/-- Characters allowed after a decimal mantissa: nothing, trailing
whitespace, or an `e`/`E` exponent tail. -/
def pg_decimal_tail (intDs fracDs r2 : List Char) : Option PgReal :=
  match r2 with
  | [] => pg_decimal_value intDs fracDs 0
  | c :: r3 =>
      if c == 'e' || c == 'E' then
        match parse_exponent_rest r3 with
        | some e => pg_decimal_value intDs fracDs e
        | none => none
      else if (c :: r3).all pg_isspace then pg_decimal_value intDs fracDs 0
      else none

/-- Characters allowed after a hexadecimal mantissa: nothing, trailing
whitespace, or a `p`/`P` binary-exponent tail. -/
def pg_hex_tail (intDs fracDs r2 : List Char) : Option PgReal :=
  match r2 with
  | [] => pg_hex_value intDs fracDs 0
  | c :: r3 =>
      if c == 'p' || c == 'P' then
        match parse_exponent_rest r3 with
        | some e => pg_hex_value intDs fracDs e
        | none => none
      else if (c :: r3).all pg_isspace then pg_hex_value intDs fracDs 0
      else none

/-- Decimal float literal: digits with an optional fractional part (at
least one digit overall: `12`, `12.`, `.5`, `12.5`), then an optional
exponent. -/
def parse_real_decimal (cs : List Char) : Option PgReal :=
  let intDs := cs.takeWhile Char.isDigit
  let r1 := cs.drop intDs.length
  match r1 with
  | '.' :: r' =>
      let fracDs := r'.takeWhile Char.isDigit
      let r2 := r'.drop fracDs.length
      if intDs.isEmpty && fracDs.isEmpty then none
      else pg_decimal_tail intDs fracDs r2
  | _ =>
      if intDs.isEmpty then none
      else pg_decimal_tail intDs [] r1

/-- Hexadecimal float literal (after the `0x` prefix): hex digits with
an optional fractional part, then an optional binary exponent, as
`strtof` accepts. -/
def parse_real_hex (r : List Char) : Option PgReal :=
  let intDs := r.takeWhile pg_isHexDigit
  let r1 := r.drop intDs.length
  match r1 with
  | '.' :: r' =>
      let fracDs := r'.takeWhile pg_isHexDigit
      let r2 := r'.drop fracDs.length
      if intDs.isEmpty && fracDs.isEmpty then none
      else pg_hex_tail intDs fracDs r2
  | _ =>
      if intDs.isEmpty then none
      else pg_hex_tail intDs [] r1

/-- Special word forms `strtof` and `float4in` accept,
case-insensitively: `inf`, `infinity`, and `nan` with an optional
parenthesized tag. -/
def parse_real_word (cs : List Char) : Option PgReal :=
  let word := cs.takeWhile Char.isAlpha
  let rest := cs.drop word.length
  match word.map Char.toLower with
  | ['i', 'n', 'f'] => if rest.all pg_isspace then some .inf else none
  | ['i', 'n', 'f', 'i', 'n', 'i', 't', 'y'] =>
      if rest.all pg_isspace then some .inf else none
  | ['n', 'a', 'n'] =>
      match rest with
      | '(' :: r =>
          let inner := r.takeWhile (fun c => c.isAlphanum || c == '_')
          match r.drop inner.length with
          | ')' :: r2 => if r2.all pg_isspace then some .nan else none
          | _ => none
      | _ => if rest.all pg_isspace then some .nan else none
  | _ => none

/-- Numeric body of a `real` literal (sign already consumed):
hexadecimal when it starts with `0x`/`0X`, decimal otherwise. -/
def parse_real_number (cs : List Char) : Option PgReal :=
  match cs with
  | '0' :: 'x' :: r => parse_real_hex r
  | '0' :: 'X' :: r => parse_real_hex r
  | _ => parse_real_decimal cs

/-- Unsigned `real` literal body: a special word when it starts with a
letter, a numeric literal otherwise. -/
def parse_real_unsigned (cs : List Char) : Option PgReal :=
  if (cs.takeWhile Char.isAlpha).isEmpty then parse_real_number cs
  else parse_real_word cs

/-- Semantics of the Postgres cast `::REAL` on a non-null text value
(`float4in` over the C-locale `strtof`): optional surrounding
whitespace and sign; a decimal literal with optional exponent, a
hexadecimal literal with optional binary exponent, or the words
`inf`/`infinity`/`nan`; `none` when the text is not such a literal or
when a nonzero finite value falls outside `float4` range — in either
case the cast raises and the statement aborts. -/
def parse_pg_real (s : String) : Option PgReal :=
  match (s.data).dropWhile pg_isspace with
  | '+' :: r => parse_real_unsigned r
  | '-' :: r => (parse_real_unsigned r).map PgReal.negate
  | cs => parse_real_unsigned cs

/-- Digits of an int4 literal with the given sign: a nonempty digit
string followed only by whitespace, whose value must lie in the int4
range `[-2^31, 2^31 - 1]` — `pg_strtoint32` raises `value out of
range` otherwise. -/
def pg_int_of_digits (neg : Bool) (cs : List Char) : Option Int :=
  let ds := cs.takeWhile Char.isDigit
  if ds.isEmpty then none
  else if !((cs.drop ds.length).all pg_isspace) then none
  else
    let v : Int := if neg then -(digitsToNat ds : Int) else (digitsToNat ds : Int)
    if -(2 ^ 31) ≤ v ∧ v ≤ 2 ^ 31 - 1 then some v else none

/-- Semantics of the Postgres cast `::INTEGER` on a non-null text value
(`int4in` via `pg_strtoint32`): optional surrounding whitespace, an
optional sign, one or more decimal digits, with the int4 range check;
`none` when the text is not such a literal or the value is out of
range — in either case the cast raises and the statement aborts. -/
def parse_pg_int (s : String) : Option Int :=
  match (s.data).dropWhile pg_isspace with
  | '+' :: r => pg_int_of_digits false r
  | '-' :: r => pg_int_of_digits true r
  | cs => pg_int_of_digits false cs

/-- The SQL expression `NULLIF(v, '')::INTEGER`: SQL `NULL` and the
empty string become `NULL`; any other text must parse as an in-range
integer or the statement aborts with a cast error. -/
def coerce_int (f : Option String) : Except ETLError (Option Int) :=
  match f with
  | none => .ok none
  | some v =>
      if v = "" then .ok none
      else
        match parse_pg_int v with
        | some n => .ok (some n)
        | none => .error .ValueCoercionError

/-- The SQL expression `NULLIF(v, '')::REAL`, as `coerce_int`. -/
def coerce_real (f : Option String) : Except ETLError (Option PgReal) :=
  match f with
  | none => .ok none
  | some v =>
      if v = "" then .ok none
      else
        match parse_pg_real v with
        | some q => .ok (some q)
        | none => .error .ValueCoercionError

/-- Outcome of one `load_tsv_to_stage` call: the staging table's
contents after the call, plus the raised error if the call failed.  The
Python function raises its errors before the table-clearing `DELETE`, so
on failure the table keeps its previous rows. -/
structure LoadResult (α : Type) where
  table : List α
  error : Option ETLError
deriving DecidableEq

/-- The function `load_tsv_to_stage(conn, filepath, stage_table,
expected_columns, batch_size)`.  The file system is modelled as
`Option TsvFile` (`none` = path does not exist); `fromRecord` is the
per-row projection `[row.get(c, None) for c in expected_columns]`
specialised to the staging table's typed row.  The source computes
`missing` as `sorted(set(expected_columns) - set(fieldnames))`; we keep
the same set as a filtered list (order immaterial).  Batch boundaries
only affect commit granularity, never the final contents, so the insert
loop is modelled as one traversal. -/
def load_tsv_to_stage {α : Type} (fromRecord : TsvRecord → α)
    (file : Option TsvFile) (expected_columns : List String)
    (table : List α) : LoadResult α :=
  match file with
  | none => ⟨table, some .MissingSourceFile⟩
  | some f =>
      let missing := expected_columns.filter (fun c => !f.fieldnames.contains c)
      if missing.isEmpty then
        ⟨f.records.map fromRecord, none⟩
      else
        ⟨table, some (.SchemaMismatch missing)⟩

/-- `EXPECTED_COLUMNS["anime"]`. -/
def EXPECTED_COLUMNS_anime : List String :=
  ["AnimeID", "AnimeTitle", "Type", "Episodes", "Status", "StartDate",
   "EndDate", "Source", "StudioName", "RatingCategory", "OverallScore",
   "PopularityRank"]

/-- `EXPECTED_COLUMNS["genres"]`. -/
def EXPECTED_COLUMNS_genres : List String :=
  ["AnimeID", "GenreName"]

/-- `EXPECTED_COLUMNS["users"]`. -/
def EXPECTED_COLUMNS_users : List String :=
  ["UserID", "UserName", "Country", "AgeGroup", "Gender"]

/-- `EXPECTED_COLUMNS["ratings"]`. -/
def EXPECTED_COLUMNS_ratings : List String :=
  ["UserID", "AnimeID", "UserScore", "RatingDate", "WatchStatus"]

/-- Projection of a parsed record into `stage_anime`, column for column
as listed in `EXPECTED_COLUMNS["anime"]`. -/
def stage_anime_of_record (r : TsvRecord) : StageAnimeRow :=
  ⟨record_get r "AnimeID", record_get r "AnimeTitle",
   record_get r "Type", record_get r "Episodes",
   record_get r "Status", record_get r "StartDate",
   record_get r "EndDate", record_get r "Source",
   record_get r "StudioName", record_get r "RatingCategory",
   record_get r "OverallScore", record_get r "PopularityRank"⟩

/-- Projection of a parsed record into `stage_genres`. -/
def stage_genre_of_record (r : TsvRecord) : StageGenreRow :=
  ⟨record_get r "AnimeID", record_get r "GenreName"⟩

/-- Projection of a parsed record into `stage_users`. -/
def stage_user_of_record (r : TsvRecord) : StageUserRow :=
  ⟨record_get r "UserID", record_get r "UserName",
   record_get r "Country", record_get r "AgeGroup",
   record_get r "Gender"⟩

/-- Projection of a parsed record into `stage_ratings`. -/
def stage_rating_of_record (r : TsvRecord) : StageRatingRow :=
  ⟨record_get r "UserID", record_get r "AnimeID",
   record_get r "UserScore", record_get r "RatingDate",
   record_get r "WatchStatus"⟩

/-- One `INSERT INTO dim SELECT DISTINCT v ... ON CONFLICT DO NOTHING`
statement over an already-filtered value list: each value is appended at
the end of the dimension (receiving the next serial position) unless it
is already present, in which case the conflict is skipped.  `DISTINCT`
needs no separate step: a value's second occurrence is already present
and is skipped. -/
def dim_insert_distinct (dim : List String) (vals : List String) : List String :=
  vals.foldl (fun d v => if v ∈ d then d else d ++ [v]) dim

/-- The `WHERE col IS NOT NULL AND col <> ''` filter of each dimension
query: the non-null, non-empty values of one staging column, in table
order. -/
def stage_values {α : Type} (col : α → Option String) (rows : List α) :
    List String :=
  (rows.filterMap col).filter (fun v => v != "")

/-- The function `build_dimensions(conn)`: ten independent
insert-distinct statements, one per dimension, each drawing from its
staging column. -/
def build_dimensions (stg : Staging) (w : Warehouse) : Warehouse :=
  { w with
    anime_types :=
      dim_insert_distinct w.anime_types
        (stage_values StageAnimeRow.Type' stg.stage_anime),
    anime_statuses :=
      dim_insert_distinct w.anime_statuses
        (stage_values StageAnimeRow.Status stg.stage_anime),
    studios :=
      dim_insert_distinct w.studios
        (stage_values StageAnimeRow.StudioName stg.stage_anime),
    sources :=
      dim_insert_distinct w.sources
        (stage_values StageAnimeRow.Source stg.stage_anime),
    rating_categories :=
      dim_insert_distinct w.rating_categories
        (stage_values StageAnimeRow.RatingCategory stg.stage_anime),
    genres :=
      dim_insert_distinct w.genres
        (stage_values StageGenreRow.GenreName stg.stage_genres),
    countries :=
      dim_insert_distinct w.countries
        (stage_values StageUserRow.Country stg.stage_users),
    age_groups :=
      dim_insert_distinct w.age_groups
        (stage_values StageUserRow.AgeGroup stg.stage_users),
    genders :=
      dim_insert_distinct w.genders
        (stage_values StageUserRow.Gender stg.stage_users),
    watch_statuses :=
      dim_insert_distinct w.watch_statuses
        (stage_values StageRatingRow.WatchStatus stg.stage_ratings) }

/-- A join `ON dim_value_column = v`: the surrogate key (1-based
position) of natural value `v` in the dimension, `none` when absent. -/
def dim_lookup : List String → String → Option Nat
  | [], _ => none
  | d :: ds, v => if d = v then some 1 else (dim_lookup ds v).map (· + 1)

/-- Primary-key probe on the `anime` table, as consulted by joins and by
`ON CONFLICT (anime_id) DO NOTHING`. -/
def anime_id_present (t : List AnimeRow) (aid : String) : Bool :=
  t.any (fun a => a.anime_id == aid)

/-- Primary-key probe on the `users` table. -/
def user_id_present (t : List UserRow) (uid : String) : Bool :=
  t.any (fun u => u.user_id == uid)

/-- Left-to-right fold of a fallible step over a list, stopping at the
first error: the evaluation order of an `INSERT ... SELECT` statement
processing staged rows in table order. -/
def foldE {α β : Type} (f : β → α → Except ETLError β) :
    β → List α → Except ETLError β
  | b, [] => .ok b
  | b, a :: l =>
      match f b a with
      | .ok b' => foldE f b' l
      | .error e => .error e

/-- Projection of one `stage_anime` row by the `SELECT` of the anime
insert in `load_entities`: the three `NULLIF(...)::` casts (a bad cast
aborts the statement), the five `LEFT JOIN` dimension lookups (unmatched
or null values give a null key), and the `NOT NULL` columns `anime_id`
and `title` (a null there aborts the insert). -/
def anime_row_of_stage (w : Warehouse) (s : StageAnimeRow) :
    Except ETLError AnimeRow :=
  match coerce_int s.Episodes, coerce_real s.OverallScore,
      coerce_int s.PopularityRank with
  | .ok episodes, .ok overall, .ok popularity =>
      match s.AnimeID, s.AnimeTitle with
      | some aid, some tl =>
          .ok { anime_id := aid
                title := tl
                type_id := s.Type'.bind (dim_lookup w.anime_types)
                status_id := s.Status.bind (dim_lookup w.anime_statuses)
                episodes := episodes
                start_date := s.StartDate
                end_date := s.EndDate
                source_id := s.Source.bind (dim_lookup w.sources)
                studio_id := s.StudioName.bind (dim_lookup w.studios)
                rating_category_id :=
                  s.RatingCategory.bind (dim_lookup w.rating_categories)
                overall_score := overall
                popularity_rank := popularity }
      | _, _ => .error .NotNullViolation
  | .error e, _, _ => .error e
  | _, .error e, _ => .error e
  | _, _, .error e => .error e

/-- Projection of one `stage_users` row by the `SELECT` of the users
insert in `load_entities` (three `LEFT JOIN` lookups, no casts). -/
def user_row_of_stage (w : Warehouse) (s : StageUserRow) :
    Except ETLError UserRow :=
  match s.UserID, s.UserName with
  | some uid, some nm =>
      .ok { user_id := uid
            user_name := nm
            country_id := s.Country.bind (dim_lookup w.countries)
            age_group_id := s.AgeGroup.bind (dim_lookup w.age_groups)
            gender_id := s.Gender.bind (dim_lookup w.genders) }
  | _, _ => .error .NotNullViolation

/-- `ON CONFLICT (anime_id) DO NOTHING`: append unless the natural key
is already in the table. -/
def insert_anime (t : List AnimeRow) (a : AnimeRow) : List AnimeRow :=
  if anime_id_present t a.anime_id then t else t ++ [a]

/-- `ON CONFLICT (user_id) DO NOTHING`. -/
def insert_user (t : List UserRow) (u : UserRow) : List UserRow :=
  if user_id_present t u.user_id then t else t ++ [u]

/-- Processing of one staged anime row inside the anime insert-select:
project it (a failed cast aborts), then insert with conflict-skip. -/
def anime_insert_step (w : Warehouse) (t : List AnimeRow)
    (s : StageAnimeRow) : Except ETLError (List AnimeRow) :=
  match anime_row_of_stage w s with
  | .ok a => .ok (insert_anime t a)
  | .error e => .error e

/-- Processing of one staged user row inside the users insert-select. -/
def user_insert_step (w : Warehouse) (t : List UserRow)
    (s : StageUserRow) : Except ETLError (List UserRow) :=
  match user_row_of_stage w s with
  | .ok u => .ok (insert_user t u)
  | .error e => .error e

/-- The function `load_entities(conn)`: the anime insert-select, then
the users insert-select, committed together — an error in either leaves
the warehouse untouched. -/
def load_entities (stg : Staging) (w : Warehouse) :
    Except ETLError Warehouse :=
  match foldE (anime_insert_step w) w.anime stg.stage_anime with
  | .error e => .error e
  | .ok animeTable =>
      match foldE (user_insert_step w) w.users stg.stage_users with
      | .error e => .error e
      | .ok userTable =>
          .ok { w with anime := animeTable, users := userTable }

/-- Projection of one `stage_genres` row by the genre-fact
insert-select: the two inner joins (`genres` on name, `anime` on id)
drop the row when either side is unmatched or the staged value null. -/
def genre_fact_of_stage (w : Warehouse) (s : StageGenreRow) :
    Option GenreFactRow :=
  match s.AnimeID, s.GenreName.bind (dim_lookup w.genres) with
  | some aid, some gid =>
      if anime_id_present w.anime aid then some ⟨aid, gid⟩ else none
  | _, _ => none

/-- Projection of one `stage_ratings` row by the ratings insert-select:
three inner joins (`watch_statuses` on description, `users` and `anime`
on natural key) drop unmatched rows; for a row surviving the joins the
`NULLIF(UserScore, '')::REAL` cast runs and may abort the statement. -/
def rating_fact_of_stage (w : Warehouse) (s : StageRatingRow) :
    Except ETLError (Option RatingRow) :=
  match s.UserID, s.AnimeID,
      s.WatchStatus.bind (dim_lookup w.watch_statuses) with
  | some uid, some aid, some wsid =>
      if user_id_present w.users uid && anime_id_present w.anime aid then
        match coerce_real s.UserScore with
        | .ok score =>
            .ok (some { user_id := uid
                        anime_id := aid
                        user_score := score
                        rating_date := s.RatingDate
                        watch_status_id := some wsid })
        | .error e => .error e
      else .ok none
  | _, _, _ => .ok none

/-- `ON CONFLICT (anime_id, genre_id) DO NOTHING` on the genre fact
table. -/
def insert_genre_fact (t : List GenreFactRow) (g : GenreFactRow) :
    List GenreFactRow :=
  if t.any (fun x => x.anime_id == g.anime_id && x.genre_id == g.genre_id)
  then t else t ++ [g]

/-- `ON CONFLICT (user_id, anime_id) DO NOTHING` on the ratings fact
table: the composite key decides, the score does not. -/
def insert_rating (t : List RatingRow) (r : RatingRow) : List RatingRow :=
  if t.any (fun x => x.user_id == r.user_id && x.anime_id == r.anime_id)
  then t else t ++ [r]

/-- Processing of one staged genre row inside the genre-fact
insert-select: rows dropped by the joins leave the table unchanged. -/
def genre_insert_step (w : Warehouse) (t : List GenreFactRow)
    (s : StageGenreRow) : List GenreFactRow :=
  match genre_fact_of_stage w s with
  | some g => insert_genre_fact t g
  | none => t

/-- Processing of one staged rating row inside the ratings
insert-select. -/
def rating_insert_step (w : Warehouse) (t : List RatingRow)
    (s : StageRatingRow) : Except ETLError (List RatingRow) :=
  match rating_fact_of_stage w s with
  | .ok (some r) => .ok (insert_rating t r)
  | .ok none => .ok t
  | .error e => .error e

/-- The function `build_facts(conn)`: the genre-fact insert-select (no
casts, so never an error), then the ratings insert-select, committed
together. -/
def build_facts (stg : Staging) (w : Warehouse) :
    Except ETLError Warehouse :=
  let ag := stg.stage_genres.foldl (genre_insert_step w) w.anime_genres
  match foldE (rating_insert_step w) w.user_anime_ratings
      stg.stage_ratings with
  | .error e => .error e
  | .ok ur => .ok { w with anime_genres := ag, user_anime_ratings := ur }

/-- The four source files named in `FILES`, each `none` when the path
does not exist on disk. -/
structure InputFiles where
  anime_file : Option TsvFile
  genres_file : Option TsvFile
  users_file : Option TsvFile
  ratings_file : Option TsvFile
deriving DecidableEq

/-- The `__main__` driver: execute `STAGING_CREATE_SQL` (dropping and
recreating every table, so the prior warehouse and staging state is
discarded), load the four files in `FILES` order into the freshly
emptied staging tables, then `build_dimensions`, `load_entities`,
`build_facts`; the first raised error aborts the run. -/
def run_pipeline (files : InputFiles) (_prior : Staging × Warehouse) :
    Except ETLError (Staging × Warehouse) :=
  let ra := load_tsv_to_stage stage_anime_of_record files.anime_file
    EXPECTED_COLUMNS_anime []
  match ra.error with
  | some e => .error e
  | none =>
  let rg := load_tsv_to_stage stage_genre_of_record files.genres_file
    EXPECTED_COLUMNS_genres []
  match rg.error with
  | some e => .error e
  | none =>
  let ru := load_tsv_to_stage stage_user_of_record files.users_file
    EXPECTED_COLUMNS_users []
  match ru.error with
  | some e => .error e
  | none =>
  let rr := load_tsv_to_stage stage_rating_of_record files.ratings_file
    EXPECTED_COLUMNS_ratings []
  match rr.error with
  | some e => .error e
  | none =>
  let stg : Staging := ⟨ra.table, rg.table, ru.table, rr.table⟩
  let w1 := build_dimensions stg emptyWarehouse
  match load_entities stg w1 with
  | .error e => .error e
  | .ok w2 =>
      match build_facts stg w2 with
      | .error e => .error e
      | .ok w3 => .ok (stg, w3)

/-- Membership in an insert-distinct result: exactly the old rows plus
the staged values. -/
lemma mem_dim_insert_distinct (vs : List String) (d : List String)
    (x : String) : x ∈ dim_insert_distinct d vs ↔ x ∈ d ∨ x ∈ vs := by
  induction vs generalizing d with
  | nil => simp [dim_insert_distinct]
  | cons v vs ih =>
    rw [show dim_insert_distinct d (v :: vs)
        = dim_insert_distinct (if v ∈ d then d else d ++ [v]) vs from rfl]
    rw [ih]
    by_cases h : v ∈ d
    · rw [if_pos h]
      constructor
      · rintro (hx | hx)
        · exact Or.inl hx
        · exact Or.inr (List.mem_cons_of_mem v hx)
      · rintro (hx | hx)
        · exact Or.inl hx
        · rcases List.mem_cons.mp hx with rfl | hx
          · exact Or.inl h
          · exact Or.inr hx
    · rw [if_neg h]
      simp only [List.mem_append, List.mem_singleton, List.mem_cons]
      tauto

/-- Insert-distinct preserves freedom from duplicates. -/
lemma dim_insert_distinct_nodup (vs : List String) (d : List String)
    (hd : d.Nodup) : (dim_insert_distinct d vs).Nodup := by
  induction vs generalizing d with
  | nil => exact hd
  | cons v vs ih =>
    rw [show dim_insert_distinct d (v :: vs)
        = dim_insert_distinct (if v ∈ d then d else d ++ [v]) vs from rfl]
    by_cases h : v ∈ d
    · rw [if_pos h]; exact ih d hd
    · rw [if_neg h]
      refine ih (d ++ [v]) ?_
      simp [List.nodup_append, hd, List.disjoint_singleton, h]

/-- Insert-distinct over values already present changes nothing. -/
lemma dim_insert_distinct_subset (vs : List String) (d : List String)
    (h : ∀ v ∈ vs, v ∈ d) : dim_insert_distinct d vs = d := by
  induction vs with
  | nil => rfl
  | cons v vs ih =>
    rw [show dim_insert_distinct d (v :: vs)
        = dim_insert_distinct (if v ∈ d then d else d ++ [v]) vs from rfl]
    rw [if_pos (h v (List.mem_cons_self v vs))]
    exact ih (fun x hx => h x (List.mem_cons_of_mem v hx))

/-- Insert-distinct twice with the same values is the same as once. -/
lemma dim_insert_distinct_idem (vs : List String) (d : List String) :
    dim_insert_distinct (dim_insert_distinct d vs) vs
      = dim_insert_distinct d vs :=
  dim_insert_distinct_subset vs _
    (fun v hv => (mem_dim_insert_distinct vs d v).mpr (Or.inr hv))

/-- Insert-distinct appends a (possibly empty) block of genuinely new
staged values after the untouched old rows. -/
lemma dim_insert_distinct_decomp (vs : List String) (d : List String) :
    ∃ t, dim_insert_distinct d vs = d ++ t
      ∧ ∀ x ∈ t, x ∉ d ∧ x ∈ vs := by
  induction vs generalizing d with
  | nil => exact ⟨[], by simp [dim_insert_distinct], by simp⟩
  | cons v vs ih =>
    rw [show dim_insert_distinct d (v :: vs)
        = dim_insert_distinct (if v ∈ d then d else d ++ [v]) vs from rfl]
    by_cases h : v ∈ d
    · rw [if_pos h]
      obtain ⟨t, ht, hp⟩ := ih d
      exact ⟨t, ht, fun x hx =>
        ⟨(hp x hx).1, List.mem_cons_of_mem v (hp x hx).2⟩⟩
    · rw [if_neg h]
      obtain ⟨t, ht, hp⟩ := ih (d ++ [v])
      refine ⟨v :: t, by rw [ht]; simp, fun x hx => ?_⟩
      rcases List.mem_cons.mp hx with rfl | hx
      · exact ⟨h, List.mem_cons_self x vs⟩
      · obtain ⟨h1, h2⟩ := hp x hx
        exact ⟨fun hd => h1 (List.mem_append.mpr (Or.inl hd)),
          List.mem_cons_of_mem v h2⟩

/-- Loading a dimension from empty yields one row per distinct staged
value. -/
lemma length_dim_insert_distinct_nil (vs : List String) :
    (dim_insert_distinct [] vs).length = vs.toFinset.card := by
  have hn : (dim_insert_distinct [] vs).Nodup :=
    dim_insert_distinct_nodup vs [] List.nodup_nil
  have hs : (dim_insert_distinct [] vs).toFinset = vs.toFinset := by
    ext x
    simp [List.mem_toFinset, mem_dim_insert_distinct]
  rw [← List.toFinset_card_of_nodup hn, hs]

/-- A successful dimension lookup returns a valid surrogate key: a
1-based position inside the dimension. -/
lemma dim_lookup_bounds (d : List String) (v : String) (i : Nat)
    (h : dim_lookup d v = some i) : 1 ≤ i ∧ i ≤ d.length := by
  induction d generalizing i with
  | nil => simp [dim_lookup] at h
  | cons a d ih =>
    by_cases hav : a = v
    · rw [show dim_lookup (a :: d) v
          = if a = v then some 1 else (dim_lookup d v).map (· + 1)
          from rfl, if_pos hav] at h
      cases h
      simp
    · rw [show dim_lookup (a :: d) v
          = if a = v then some 1 else (dim_lookup d v).map (· + 1)
          from rfl, if_neg hav] at h
      obtain ⟨j, hj, rfl⟩ := Option.map_eq_some'.mp h
      have := ih j hj
      simp only [List.length_cons]
      omega

/-- A lookup succeeds exactly for values present in the dimension. -/
lemma dim_lookup_isSome_iff (d : List String) (v : String) :
    (dim_lookup d v).isSome ↔ v ∈ d := by
  induction d with
  | nil => simp [dim_lookup]
  | cons a d ih =>
    by_cases hav : a = v
    · subst hav; simp [dim_lookup]
    · rw [show dim_lookup (a :: d) v
          = if a = v then some 1 else (dim_lookup d v).map (· + 1)
          from rfl, if_neg hav]
      simp [Option.isSome_map', ih, List.mem_cons,
        fun h => hav (Eq.symm h)]
      tauto

/-- Splitting a fallible fold at a list split. -/
lemma foldE_append_ok {α β : Type} (f : β → α → Except ETLError β)
    (l₁ l₂ : List α) (b c : β)
    (h : foldE f b (l₁ ++ l₂) = .ok c) :
    ∃ b₁, foldE f b l₁ = .ok b₁ ∧ foldE f b₁ l₂ = .ok c := by
  induction l₁ generalizing b with
  | nil => exact ⟨b, rfl, h⟩
  | cons a l ih =>
    rw [List.cons_append,
      show foldE f b (a :: (l ++ l₂))
        = match f b a with
          | .ok b' => foldE f b' (l ++ l₂)
          | .error e => .error e from rfl] at h
    rw [show foldE f b (a :: l)
        = match f b a with
          | .ok b' => foldE f b' l
          | .error e => .error e from rfl]
    cases hfa : f b a with
    | ok b' =>
      rw [hfa] at h
      exact ih b' h
    | error e => rw [hfa] at h; exact absurd h (by simp)

/-- Unfolding one successful step of a fallible fold. -/
lemma foldE_cons_ok {α β : Type} (f : β → α → Except ETLError β)
    (a : α) (l : List α) (b c : β)
    (h : foldE f b (a :: l) = .ok c) :
    ∃ b₁, f b a = .ok b₁ ∧ foldE f b₁ l = .ok c := by
  rw [show foldE f b (a :: l)
      = match f b a with
        | .ok b' => foldE f b' l
        | .error e => .error e from rfl] at h
  cases hfa : f b a with
  | ok b' => rw [hfa] at h; exact ⟨b', rfl, h⟩
  | error e => rw [hfa] at h; exact absurd h (by simp)

/-- An invariant preserved by every successful step of a fallible fold
holds of its successful result. -/
lemma foldE_ok_invariant {α β : Type} (f : β → α → Except ETLError β)
    (P : β → Prop) (l : List α)
    (hstep : ∀ b a b', a ∈ l → P b → f b a = .ok b' → P b') :
    ∀ b b', P b → foldE f b l = .ok b' → P b' := by
  induction l with
  | nil =>
    intro b b' hb h
    rw [show foldE f b [] = .ok b from rfl] at h
    cases h
    exact hb
  | cons a l ih =>
    intro b b' hb h
    obtain ⟨b₁, hfa, hrest⟩ := foldE_cons_ok f a l b b' h
    exact ih (fun b a' b'' ha' => hstep b a' b'' (List.mem_cons_of_mem a ha'))
      b₁ b' (hstep b a b₁ (List.mem_cons_self a l) hb hfa) hrest

/-- A fallible fold whose every step succeeds succeeds. -/
lemma foldE_ok_of_steps {α β : Type} (f : β → α → Except ETLError β)
    (l : List α) (hstep : ∀ b a, a ∈ l → ∃ b', f b a = .ok b') :
    ∀ b, ∃ b', foldE f b l = .ok b' := by
  induction l with
  | nil => intro b; exact ⟨b, rfl⟩
  | cons a l ih =>
    intro b
    obtain ⟨b₁, hb₁⟩ := hstep b a (List.mem_cons_self a l)
    obtain ⟨b', hb'⟩ := ih (fun b'' a' ha' =>
      hstep b'' a' (List.mem_cons_of_mem a ha')) b₁
    refine ⟨b', ?_⟩
    rw [show foldE f b (a :: l)
        = match f b a with
          | .ok b₁ => foldE f b₁ l
          | .error e => .error e from rfl, hb₁]
    exact hb'

/-- A fallible fold fails with error `E` as soon as one of its rows
fails with `E`, provided every row either succeeds or fails with `E`. -/
lemma foldE_error_of_exists {α β : Type} (f : β → α → Except ETLError β)
    (l : List α) (E : ETLError)
    (hsteps : ∀ b a, a ∈ l → f b a = .error E ∨ ∃ b', f b a = .ok b')
    (hbad : ∃ a ∈ l, ∀ b, f b a = .error E) :
    ∀ b, foldE f b l = .error E := by
  induction l with
  | nil => obtain ⟨a, ha, _⟩ := hbad; cases ha
  | cons a l ih =>
    intro b
    rw [show foldE f b (a :: l)
        = match f b a with
          | .ok b₁ => foldE f b₁ l
          | .error e => .error e from rfl]
    obtain ⟨a₀, ha₀, hfa₀⟩ := hbad
    rcases List.mem_cons.mp ha₀ with rfl | ha₀
    · rw [hfa₀ b]
    · rcases hsteps b a (List.mem_cons_self a l) with he | ⟨b₁, hb₁⟩
      · rw [he]
      · rw [hb₁]
        exact ih
          (fun b'' a' ha' => hsteps b'' a' (List.mem_cons_of_mem a ha'))
          ⟨a₀, ha₀, hfa₀⟩ b₁

/-- An invariant preserved by every step of a plain fold holds of the
result. -/
lemma foldl_invariant {α β : Type} (f : β → α → β) (P : β → Prop)
    (l : List α) (hstep : ∀ b a, a ∈ l → P b → P (f b a)) :
    ∀ b, P b → P (l.foldl f b) := by
  induction l with
  | nil => intro b hb; exact hb
  | cons a l ih =>
    intro b hb
    rw [List.foldl_cons]
    exact ih (fun b' a' ha' => hstep b' a' (List.mem_cons_of_mem a ha'))
      (f b a) (hstep b a (List.mem_cons_self a l) hb)

/-- Members of a conflict-skip genre insert. -/
lemma mem_insert_genre_fact (t : List GenreFactRow) (g x : GenreFactRow)
    (h : x ∈ insert_genre_fact t g) : x ∈ t ∨ x = g := by
  unfold insert_genre_fact at h
  split at h
  · exact Or.inl h
  · rcases List.mem_append.mp h with hx | hx
    · exact Or.inl hx
    · exact Or.inr (List.mem_singleton.mp hx)

/-- Members of a conflict-skip rating insert. -/
lemma mem_insert_rating (t : List RatingRow) (r x : RatingRow)
    (h : x ∈ insert_rating t r) : x ∈ t ∨ x = r := by
  unfold insert_rating at h
  split at h
  · exact Or.inl h
  · rcases List.mem_append.mp h with hx | hx
    · exact Or.inl hx
    · exact Or.inr (List.mem_singleton.mp hx)

/-- A genre fact emitted by the insert-select resolved both joins: its
item exists in `anime` and its genre key is a valid position. -/
lemma genre_fact_of_stage_resolved (w : Warehouse) (s : StageGenreRow)
    (g : GenreFactRow) (h : genre_fact_of_stage w s = some g) :
    s.AnimeID = some g.anime_id
    ∧ anime_id_present w.anime g.anime_id = true
    ∧ 1 ≤ g.genre_id ∧ g.genre_id ≤ w.genres.length := by
  unfold genre_fact_of_stage at h
  split at h
  next aid gid haid hbind =>
    split at h
    next hpres =>
      cases h
      obtain ⟨gn, _, hlook⟩ := Option.bind_eq_some.mp hbind
      exact ⟨haid, hpres, dim_lookup_bounds w.genres gn gid hlook⟩
    next => exact absurd h (by simp)
  next => exact absurd h (by simp)

/-- A rating fact emitted by the insert-select resolved all three joins
and records the staged keys and a valid watch-status key. -/
lemma rating_fact_of_stage_resolved (w : Warehouse) (s : StageRatingRow)
    (r : RatingRow) (h : rating_fact_of_stage w s = .ok (some r)) :
    s.UserID = some r.user_id ∧ s.AnimeID = some r.anime_id
    ∧ user_id_present w.users r.user_id = true
    ∧ anime_id_present w.anime r.anime_id = true
    ∧ coerce_real s.UserScore = .ok r.user_score
    ∧ ∃ i, r.watch_status_id = some i
        ∧ 1 ≤ i ∧ i ≤ w.watch_statuses.length := by
  unfold rating_fact_of_stage at h
  split at h
  next uid aid wsid huid haid hbind =>
    split at h
    next hpres =>
      rw [Bool.and_eq_true] at hpres
      obtain ⟨hu, ha⟩ := hpres
      split at h
      next score hsc =>
        cases h
        obtain ⟨wsv, _, hlook⟩ := Option.bind_eq_some.mp hbind
        exact ⟨huid, haid, hu, ha, hsc,
          wsid, rfl, dim_lookup_bounds w.watch_statuses wsv wsid hlook⟩
      next => exact absurd h (by simp)
    next => exact absurd h (by simp)
  next => exact absurd h (by simp)

/-- Inversion of a successful `load_entities`: the new warehouse is the
old one with the two entity tables replaced by the fold results. -/
lemma load_entities_ok_inv (stg : Staging) (w w' : Warehouse)
    (h : load_entities stg w = .ok w') :
    ∃ A U, foldE (anime_insert_step w) w.anime stg.stage_anime = .ok A
      ∧ foldE (user_insert_step w) w.users stg.stage_users = .ok U
      ∧ w' = { w with anime := A, users := U } := by
  unfold load_entities at h
  split at h
  next => exact absurd h (by simp)
  next A hA =>
    split at h
    next => exact absurd h (by simp)
    next U hU => cases h; exact ⟨A, U, hA, hU, rfl⟩

/-- Inversion of a successful `build_facts`: the new warehouse is the
old one with the two fact tables replaced by the fold results. -/
lemma build_facts_ok_inv (stg : Staging) (w w' : Warehouse)
    (h : build_facts stg w = .ok w') :
    ∃ ur, foldE (rating_insert_step w) w.user_anime_ratings
        stg.stage_ratings = .ok ur
      ∧ w' = { w with
          anime_genres :=
            stg.stage_genres.foldl (genre_insert_step w) w.anime_genres,
          user_anime_ratings := ur } := by
  unfold build_facts at h
  split at h
  next => exact absurd h (by simp)
  next ur hur => cases h; exact ⟨ur, hur, rfl⟩

/-- Inversion of a successful pipeline run: the returned staging is what
the four file loads produced into the freshly created empty tables, and
the returned warehouse is the result of dimension build, entity load and
fact build over it from the empty warehouse. -/
lemma run_pipeline_ok_inv (files : InputFiles) (p : Staging × Warehouse)
    (stg : Staging) (w : Warehouse)
    (h : run_pipeline files p = .ok (stg, w)) :
    ∃ w2, load_entities stg (build_dimensions stg emptyWarehouse) = .ok w2
      ∧ build_facts stg w2 = .ok w := by
  simp only [run_pipeline] at h
  split at h
  next => exact absurd h (by simp)
  next =>
    split at h
    next => exact absurd h (by simp)
    next =>
      split at h
      next => exact absurd h (by simp)
      next =>
        split at h
        next => exact absurd h (by simp)
        next =>
          split at h
          next => exact absurd h (by simp)
          next w2 hw2 =>
            split at h
            next => exact absurd h (by simp)
            next w3 hw3 =>
              cases h
              exact ⟨w2, hw2, hw3⟩

/-- A `NULLIF(...)::INTEGER` coercion either yields a value or aborts
with a coercion error; no other outcome exists. -/
lemma coerce_int_shape (f : Option String) :
    (∃ o, coerce_int f = .ok o)
    ∨ coerce_int f = .error .ValueCoercionError := by
  rcases f with _ | v
  · exact Or.inl ⟨none, rfl⟩
  · by_cases hv : v = ""
    · exact Or.inl ⟨none, by simp only [coerce_int]; rw [if_pos hv]⟩
    · cases hp : parse_pg_int v with
      | some n =>
        exact Or.inl ⟨some n, by
          simp only [coerce_int]; rw [if_neg hv, hp]⟩
      | none =>
        exact Or.inr (by simp only [coerce_int]; rw [if_neg hv, hp])

/-- A `NULLIF(...)::REAL` coercion either yields a value or aborts with
a coercion error. -/
lemma coerce_real_shape (f : Option String) :
    (∃ o, coerce_real f = .ok o)
    ∨ coerce_real f = .error .ValueCoercionError := by
  rcases f with _ | v
  · exact Or.inl ⟨none, rfl⟩
  · by_cases hv : v = ""
    · exact Or.inl ⟨none, by simp only [coerce_real]; rw [if_pos hv]⟩
    · cases hp : parse_pg_real v with
      | some q =>
        exact Or.inl ⟨some q, by
          simp only [coerce_real]; rw [if_neg hv, hp]⟩
      | none =>
        exact Or.inr (by simp only [coerce_real]; rw [if_neg hv, hp])

/-- A field is integer-coercible when every non-empty value it may
carry parses as an integer. -/
def coercible_int_field (f : Option String) : Prop :=
  ∀ v, f = some v → v ≠ "" → (parse_pg_int v).isSome

/-- A field is real-coercible when every non-empty value it may carry
parses as a numeric literal. -/
def coercible_real_field (f : Option String) : Prop :=
  ∀ v, f = some v → v ≠ "" → (parse_pg_real v).isSome

/-- Coercible integer fields coerce without error. -/
lemma coerce_int_ok_of_coercible (f : Option String)
    (h : coercible_int_field f) : ∃ o, coerce_int f = .ok o := by
  rcases f with _ | v
  · exact ⟨none, rfl⟩
  · by_cases hv : v = ""
    · exact ⟨none, by simp only [coerce_int]; rw [if_pos hv]⟩
    · have hs := h v rfl hv
      cases hp : parse_pg_int v with
      | some n =>
        exact ⟨some n, by simp only [coerce_int]; rw [if_neg hv, hp]⟩
      | none => rw [hp] at hs; exact absurd hs (by simp)

/-- Coercible real fields coerce without error. -/
lemma coerce_real_ok_of_coercible (f : Option String)
    (h : coercible_real_field f) : ∃ o, coerce_real f = .ok o := by
  rcases f with _ | v
  · exact ⟨none, rfl⟩
  · by_cases hv : v = ""
    · exact ⟨none, by simp only [coerce_real]; rw [if_pos hv]⟩
    · have hs := h v rfl hv
      cases hp : parse_pg_real v with
      | some q =>
        exact ⟨some q, by simp only [coerce_real]; rw [if_neg hv, hp]⟩
      | none => rw [hp] at hs; exact absurd hs (by simp)

/-- A non-empty value that does not parse as an integer makes the
coercion abort. -/
lemma coerce_int_error_of_bad (f : Option String) (v : String)
    (hv : f = some v) (hne : v ≠ "") (hp : parse_pg_int v = none) :
    coerce_int f = .error .ValueCoercionError := by
  subst hv
  simp only [coerce_int]
  rw [if_neg hne, hp]

/-- A non-empty value that does not parse as a numeric literal makes the
coercion abort. -/
lemma coerce_real_error_of_bad (f : Option String) (v : String)
    (hv : f = some v) (hne : v ≠ "") (hp : parse_pg_real v = none) :
    coerce_real f = .error .ValueCoercionError := by
  subst hv
  simp only [coerce_real]
  rw [if_neg hne, hp]

/-- Projection of a staged anime row with non-null key columns and
coercible numeric fields succeeds, and stores exactly the coerced
overall score. -/
lemma anime_row_of_stage_ok (w : Warehouse) (s : StageAnimeRow)
    (hid : s.AnimeID ≠ none) (ht : s.AnimeTitle ≠ none)
    (hE : coercible_int_field s.Episodes)
    (hO : coercible_real_field s.OverallScore)
    (hP : coercible_int_field s.PopularityRank) :
    ∃ a, anime_row_of_stage w s = .ok a
      ∧ coerce_real s.OverallScore = .ok a.overall_score := by
  obtain ⟨oE, hE'⟩ := coerce_int_ok_of_coercible _ hE
  obtain ⟨oO, hO'⟩ := coerce_real_ok_of_coercible _ hO
  obtain ⟨oP, hP'⟩ := coerce_int_ok_of_coercible _ hP
  obtain ⟨aid, haid⟩ := Option.ne_none_iff_exists'.mp hid
  obtain ⟨tl, htl⟩ := Option.ne_none_iff_exists'.mp ht
  refine ⟨⟨aid, tl, s.Type'.bind (dim_lookup w.anime_types),
    s.Status.bind (dim_lookup w.anime_statuses), oE, s.StartDate,
    s.EndDate, s.Source.bind (dim_lookup w.sources),
    s.StudioName.bind (dim_lookup w.studios),
    s.RatingCategory.bind (dim_lookup w.rating_categories), oO, oP⟩,
    ?_, hO'⟩
  unfold anime_row_of_stage
  rw [hE', hO', hP', haid, htl]

/-- Projection of a staged user row with non-null key columns always
succeeds (the users insert-select has no casts). -/
lemma user_row_of_stage_ok (w : Warehouse) (s : StageUserRow)
    (hid : s.UserID ≠ none) (hn : s.UserName ≠ none) :
    ∃ u, user_row_of_stage w s = .ok u := by
  obtain ⟨uid, huid⟩ := Option.ne_none_iff_exists'.mp hid
  obtain ⟨nm, hnm⟩ := Option.ne_none_iff_exists'.mp hn
  refine ⟨⟨uid, nm, s.Country.bind (dim_lookup w.countries),
    s.AgeGroup.bind (dim_lookup w.age_groups),
    s.Gender.bind (dim_lookup w.genders)⟩, ?_⟩
  unfold user_row_of_stage
  rw [huid, hnm]

/-- With non-null key columns, a staged anime row's projection either
succeeds or aborts with a coercion error. -/
lemma anime_row_of_stage_shape (w : Warehouse) (s : StageAnimeRow)
    (hid : s.AnimeID ≠ none) (ht : s.AnimeTitle ≠ none) :
    (∃ a, anime_row_of_stage w s = .ok a)
    ∨ anime_row_of_stage w s = .error .ValueCoercionError := by
  obtain ⟨aid, haid⟩ := Option.ne_none_iff_exists'.mp hid
  obtain ⟨tl, htl⟩ := Option.ne_none_iff_exists'.mp ht
  rcases coerce_int_shape s.Episodes with ⟨oE, hE⟩ | hE
  · rcases coerce_real_shape s.OverallScore with ⟨oO, hO⟩ | hO
    · rcases coerce_int_shape s.PopularityRank with ⟨oP, hP⟩ | hP
      · exact Or.inl ⟨_, by
          unfold anime_row_of_stage; rw [hE, hO, hP, haid, htl]⟩
      · exact Or.inr (by
          unfold anime_row_of_stage; rw [hE, hO, hP])
    · rcases coerce_int_shape s.PopularityRank with ⟨oP, hP⟩ | hP
      · exact Or.inr (by
          unfold anime_row_of_stage; rw [hE, hO, hP])
      · exact Or.inr (by
          unfold anime_row_of_stage; rw [hE, hO, hP])
  · rcases coerce_real_shape s.OverallScore with ⟨oO, hO⟩ | hO
    · rcases coerce_int_shape s.PopularityRank with ⟨oP, hP⟩ | hP
      · exact Or.inr (by
          unfold anime_row_of_stage; rw [hE, hO, hP])
      · exact Or.inr (by
          unfold anime_row_of_stage; rw [hE, hO, hP])
    · rcases coerce_int_shape s.PopularityRank with ⟨oP, hP⟩ | hP
      · exact Or.inr (by
          unfold anime_row_of_stage; rw [hE, hO, hP])
      · exact Or.inr (by
          unfold anime_row_of_stage; rw [hE, hO, hP])

/-- A staged anime row one of whose numeric casts fails aborts the
projection with a coercion error, whatever its other fields hold. -/
lemma anime_row_of_stage_bad (w : Warehouse) (s : StageAnimeRow)
    (h : coerce_int s.Episodes = .error .ValueCoercionError
      ∨ coerce_real s.OverallScore = .error .ValueCoercionError
      ∨ coerce_int s.PopularityRank = .error .ValueCoercionError) :
    anime_row_of_stage w s = .error .ValueCoercionError := by
  rcases coerce_int_shape s.Episodes with ⟨oE, hE⟩ | hE
  · rcases coerce_real_shape s.OverallScore with ⟨oO, hO⟩ | hO
    · rcases coerce_int_shape s.PopularityRank with ⟨oP, hP⟩ | hP
      · exfalso
        rcases h with h | h | h
        · rw [h] at hE; exact absurd hE (by simp)
        · rw [h] at hO; exact absurd hO (by simp)
        · rw [h] at hP; exact absurd hP (by simp)
      · unfold anime_row_of_stage; rw [hE, hO, hP]
    · rcases coerce_int_shape s.PopularityRank with ⟨oP, hP⟩ | hP
      · unfold anime_row_of_stage; rw [hE, hO, hP]
      · unfold anime_row_of_stage; rw [hE, hO, hP]
  · rcases coerce_real_shape s.OverallScore with ⟨oO, hO⟩ | hO
    · rcases coerce_int_shape s.PopularityRank with ⟨oP, hP⟩ | hP
      · unfold anime_row_of_stage; rw [hE, hO, hP]
      · unfold anime_row_of_stage; rw [hE, hO, hP]
    · rcases coerce_int_shape s.PopularityRank with ⟨oP, hP⟩ | hP
      · unfold anime_row_of_stage; rw [hE, hO, hP]
      · unfold anime_row_of_stage; rw [hE, hO, hP]

/-- Sample input files used to exercise the theorems on concrete data:
two catalog items (one empty score, one numeric), one genre tag, one
user, and a duplicated rating pair with different scores. -/
def sample_files : InputFiles :=
  { anime_file := some ⟨EXPECTED_COLUMNS_anime,
      [[("AnimeID", "A1"), ("AnimeTitle", "X"), ("Type", "TV"),
        ("OverallScore", "")],
       [("AnimeID", "A2"), ("AnimeTitle", "Y"), ("Type", "Movie"),
        ("OverallScore", "8.5")]]⟩
    genres_file := some ⟨EXPECTED_COLUMNS_genres,
      [[("AnimeID", "A1"), ("GenreName", "Action")]]⟩
    users_file := some ⟨EXPECTED_COLUMNS_users,
      [[("UserID", "U1"), ("UserName", "bob")]]⟩
    ratings_file := some ⟨EXPECTED_COLUMNS_ratings,
      [[("UserID", "U1"), ("AnimeID", "A1"), ("UserScore", "7"),
        ("WatchStatus", "Completed")],
       [("UserID", "U1"), ("AnimeID", "A1"), ("UserScore", "3"),
        ("WatchStatus", "Completed")]]⟩ }

/-- An empty prior state for sample pipeline runs. -/
def sample_prior : Staging × Warehouse :=
  (⟨[], [], [], []⟩, emptyWarehouse)

/-- The state produced by running the pipeline on the sample files. -/
def sample_out : Staging × Warehouse :=
  (run_pipeline sample_files sample_prior).toOption.getD sample_prior

/-- C1: Running the full pipeline twice on the same four input files
yields, after the second run, warehouse contents identical to those
after the first run — the same rows in every staging, dimension, entity
and fact table, hence the same row counts and the same surrogate-key
assignments.  This holds because the run begins by executing
`STAGING_CREATE_SQL`, which drops and recreates every table, so the run
is a function of the input files alone. -/
theorem pipeline_idempotent (files : InputFiles)
    (p₁ p₂ : Staging × Warehouse)
    (h : run_pipeline files p₁ = .ok p₂) :
    run_pipeline files p₂ = .ok p₂ := by
  have hdet : run_pipeline files p₂ = run_pipeline files p₁ := rfl
  rw [hdet, h]

/-- Witness for C1 on the sample files: a second run over the first
run's output reproduces it exactly. -/
theorem pipeline_idempotent_witness :
    run_pipeline sample_files sample_out = .ok sample_out :=
  pipeline_idempotent sample_files sample_prior sample_out (by rfl)

/-- C7: For every source-file load, the loader fails with
`MissingSourceFile` when the path does not exist; otherwise it succeeds
exactly when every expected column appears in the header, and on failure
the `SchemaMismatch` error lists precisely the expected columns absent
from the header — it never proceeds with a partial column set. -/
theorem loader_error_cases {α : Type} (fromRecord : TsvRecord → α)
    (expected_columns : List String) (table : List α) :
    (load_tsv_to_stage fromRecord none expected_columns table
        = ⟨table, some .MissingSourceFile⟩)
    ∧ ∀ f : TsvFile,
        ((load_tsv_to_stage fromRecord (some f) expected_columns
            table).error = none
          ↔ ∀ c ∈ expected_columns, c ∈ f.fieldnames)
        ∧ ((¬∀ c ∈ expected_columns, c ∈ f.fieldnames) →
            ∃ m, (load_tsv_to_stage fromRecord (some f) expected_columns
              table).error = some (.SchemaMismatch m))
        ∧ ∀ m, (load_tsv_to_stage fromRecord (some f) expected_columns
              table).error = some (.SchemaMismatch m) →
            ∀ c, c ∈ m ↔ c ∈ expected_columns ∧ c ∉ f.fieldnames := by
  refine ⟨rfl, fun f => ?_⟩
  simp only [load_tsv_to_stage]
  by_cases hm : (expected_columns.filter
      (fun c => !f.fieldnames.contains c)).isEmpty
  · rw [if_pos hm]
    have hall : ∀ c ∈ expected_columns, c ∈ f.fieldnames := by
      intro c hc
      have hnil := List.isEmpty_iff.mp hm
      have := List.filter_eq_nil_iff.mp hnil c hc
      simpa using this
    refine ⟨by simp only [true_iff]; exact hall, ?_, ?_⟩
    · intro hno; exact absurd hall hno
    · intro m hme
      exact absurd hme (by simp)
  · rw [if_neg hm]
    refine ⟨?_, fun _ => ⟨_, rfl⟩, ?_⟩
    · constructor
      · intro hme; exact absurd hme (by simp)
      · intro hall
        exfalso
        apply hm
        apply List.isEmpty_iff.mpr
        apply List.filter_eq_nil_iff.mpr
        intro c hc
        simp [hall c hc]
    · intro m hme
      have hm' : (expected_columns.filter
          (fun c => !f.fieldnames.contains c)) = m := by
        have := Option.some.inj hme
        exact ETLError.SchemaMismatch.inj this
      intro c
      rw [← hm']
      simp [List.mem_filter]

/-- Witness for C7: loading the genres file from a missing path fails
with `MissingSourceFile`, and a header containing only `AnimeID` yields
a `SchemaMismatch` listing exactly `GenreName`. -/
theorem loader_error_cases_witness :
    (load_tsv_to_stage stage_genre_of_record none EXPECTED_COLUMNS_genres
        ([] : List StageGenreRow)
      = ⟨[], some .MissingSourceFile⟩)
    ∧ ∀ c, c ∈ ["GenreName"]
        ↔ c ∈ EXPECTED_COLUMNS_genres ∧ c ∉ ["AnimeID"] :=
  ⟨(loader_error_cases stage_genre_of_record EXPECTED_COLUMNS_genres
      ([] : List StageGenreRow)).1,
   ((loader_error_cases stage_genre_of_record EXPECTED_COLUMNS_genres
      ([] : List StageGenreRow)).2 ⟨["AnimeID"], []⟩).2.2
     ["GenreName"] (by decide)⟩

/-- C9: When a load fails (missing file or missing header columns), the
target staging table keeps exactly its previous rows: both checks run
before the table-clearing delete and before any insert. -/
theorem failed_load_preserves_stage {α : Type}
    (fromRecord : TsvRecord → α) (file : Option TsvFile)
    (expected_columns : List String) (table : List α) (e : ETLError)
    (h : (load_tsv_to_stage fromRecord file expected_columns
        table).error = some e) :
    (load_tsv_to_stage fromRecord file expected_columns table).table
      = table := by
  rcases file with _ | f
  · rfl
  · simp only [load_tsv_to_stage] at h ⊢
    by_cases hm : (expected_columns.filter
        (fun c => !f.fieldnames.contains c)).isEmpty
    · rw [if_pos hm] at h; exact absurd h (by simp)
    · rw [if_neg hm]

/-- Witness for C9: a failed genres load over a one-row staging table
leaves that row in place. -/
theorem failed_load_preserves_stage_witness :
    (load_tsv_to_stage stage_genre_of_record none EXPECTED_COLUMNS_genres
        [StageGenreRow.mk (some "A1") (some "Action")]).table
      = [StageGenreRow.mk (some "A1") (some "Action")] :=
  failed_load_preserves_stage stage_genre_of_record none
    EXPECTED_COLUMNS_genres [StageGenreRow.mk (some "A1") (some "Action")]
    .MissingSourceFile (by decide)

/-- The staging tables of the sample run. -/
def sample_stg : Staging := sample_out.1

/-- The warehouse of the sample run. -/
def sample_w : Warehouse := sample_out.2

/-- One dimension table extends another as a set union would: the old
rows stay in place (keeping their positions, hence their surrogate
keys), followed only by staged values not previously present. -/
def dim_extends (vals old new : List String) : Prop :=
  ∃ t, new = old ++ t ∧ ∀ x ∈ t, x ∉ old ∧ x ∈ vals

/-- C6: The Dimension Builder is a set-union operation: running it twice
over unchanged staging contents leaves every dimension table exactly as
after the first run, and one run only appends natural values not already
present, never modifying or removing existing dimension rows. -/
theorem dimension_builder_set_union (stg : Staging) (w : Warehouse) :
    build_dimensions stg (build_dimensions stg w) = build_dimensions stg w
    ∧ dim_extends (stage_values StageAnimeRow.Type' stg.stage_anime)
        w.anime_types (build_dimensions stg w).anime_types
    ∧ dim_extends (stage_values StageAnimeRow.Status stg.stage_anime)
        w.anime_statuses (build_dimensions stg w).anime_statuses
    ∧ dim_extends (stage_values StageAnimeRow.StudioName stg.stage_anime)
        w.studios (build_dimensions stg w).studios
    ∧ dim_extends (stage_values StageAnimeRow.Source stg.stage_anime)
        w.sources (build_dimensions stg w).sources
    ∧ dim_extends
        (stage_values StageAnimeRow.RatingCategory stg.stage_anime)
        w.rating_categories (build_dimensions stg w).rating_categories
    ∧ dim_extends (stage_values StageGenreRow.GenreName stg.stage_genres)
        w.genres (build_dimensions stg w).genres
    ∧ dim_extends (stage_values StageUserRow.Country stg.stage_users)
        w.countries (build_dimensions stg w).countries
    ∧ dim_extends (stage_values StageUserRow.AgeGroup stg.stage_users)
        w.age_groups (build_dimensions stg w).age_groups
    ∧ dim_extends (stage_values StageUserRow.Gender stg.stage_users)
        w.genders (build_dimensions stg w).genders
    ∧ dim_extends
        (stage_values StageRatingRow.WatchStatus stg.stage_ratings)
        w.watch_statuses (build_dimensions stg w).watch_statuses := by
  unfold dim_extends
  refine ⟨?_, ?_, ?_, ?_, ?_, ?_, ?_, ?_, ?_, ?_, ?_⟩
  · simp [build_dimensions, dim_insert_distinct_idem]
  all_goals
    simp only [build_dimensions]
    exact dim_insert_distinct_decomp _ _

/-- Witness for C6 on the sample run: rebuilding the dimensions over the
loaded warehouse changes nothing. -/
theorem dimension_builder_set_union_witness :
    build_dimensions sample_stg (build_dimensions sample_stg sample_w)
      = build_dimensions sample_stg sample_w :=
  (dimension_builder_set_union sample_stg sample_w).1

/-- C3: After a run starting from the empty warehouse, each of the ten
dimension tables holds exactly one row per distinct non-null, non-empty
natural value in the staging column(s) it draws from. -/
theorem dimension_counts_from_empty (files : InputFiles)
    (p : Staging × Warehouse) (stg : Staging) (w : Warehouse)
    (h : run_pipeline files p = .ok (stg, w)) :
    w.anime_types.length
        = (stage_values StageAnimeRow.Type' stg.stage_anime).toFinset.card
    ∧ w.anime_statuses.length
        = (stage_values StageAnimeRow.Status stg.stage_anime).toFinset.card
    ∧ w.studios.length
        = (stage_values StageAnimeRow.StudioName
            stg.stage_anime).toFinset.card
    ∧ w.sources.length
        = (stage_values StageAnimeRow.Source stg.stage_anime).toFinset.card
    ∧ w.rating_categories.length
        = (stage_values StageAnimeRow.RatingCategory
            stg.stage_anime).toFinset.card
    ∧ w.genres.length
        = (stage_values StageGenreRow.GenreName
            stg.stage_genres).toFinset.card
    ∧ w.countries.length
        = (stage_values StageUserRow.Country stg.stage_users).toFinset.card
    ∧ w.age_groups.length
        = (stage_values StageUserRow.AgeGroup
            stg.stage_users).toFinset.card
    ∧ w.genders.length
        = (stage_values StageUserRow.Gender stg.stage_users).toFinset.card
    ∧ w.watch_statuses.length
        = (stage_values StageRatingRow.WatchStatus
            stg.stage_ratings).toFinset.card := by
  obtain ⟨w2, hle, hbf⟩ := run_pipeline_ok_inv files p stg w h
  obtain ⟨A, U, hA, hU, hw2⟩ := load_entities_ok_inv _ _ _ hle
  obtain ⟨ur, hur, hw⟩ := build_facts_ok_inv _ _ _ hbf
  subst hw
  subst hw2
  simp only [build_dimensions, emptyWarehouse]
  exact ⟨length_dim_insert_distinct_nil _, length_dim_insert_distinct_nil _,
    length_dim_insert_distinct_nil _, length_dim_insert_distinct_nil _,
    length_dim_insert_distinct_nil _, length_dim_insert_distinct_nil _,
    length_dim_insert_distinct_nil _, length_dim_insert_distinct_nil _,
    length_dim_insert_distinct_nil _, length_dim_insert_distinct_nil _⟩

/-- Witness for C3 on the sample run: the two distinct staged types give
a two-row type dimension. -/
theorem dimension_counts_from_empty_witness :
    sample_w.anime_types.length
      = (stage_values StageAnimeRow.Type'
          sample_stg.stage_anime).toFinset.card :=
  (dimension_counts_from_empty sample_files sample_prior sample_stg
    sample_w (by rfl)).1

/-- Values selected for a dimension are never the empty string: the
`col <> ''` filter removes it. -/
lemma ne_empty_of_mem_stage_values {α : Type} (col : α → Option String)
    (rows : List α) (x : String) (h : x ∈ stage_values col rows) :
    x ≠ "" := by
  unfold stage_values at h
  have := (List.mem_filter.mp h).2
  simpa using this

/-- C2: After a run, every fact row satisfies referential completeness:
each genre tag's item exists in `anime` and its genre key addresses an
existing genre row; each rating's user and item exist in the entity
tables and its watch-status key, when non-null, addresses an existing
watch-status row. -/
theorem facts_referentially_complete (files : InputFiles)
    (p : Staging × Warehouse) (stg : Staging) (w : Warehouse)
    (h : run_pipeline files p = .ok (stg, w)) :
    (∀ g ∈ w.anime_genres,
        anime_id_present w.anime g.anime_id = true
        ∧ 1 ≤ g.genre_id ∧ g.genre_id ≤ w.genres.length)
    ∧ ∀ r ∈ w.user_anime_ratings,
        user_id_present w.users r.user_id = true
        ∧ anime_id_present w.anime r.anime_id = true
        ∧ ∀ i, r.watch_status_id = some i →
            1 ≤ i ∧ i ≤ w.watch_statuses.length := by
  obtain ⟨w2, hle, hbf⟩ := run_pipeline_ok_inv files p stg w h
  obtain ⟨ur, hur, hw⟩ := build_facts_ok_inv _ _ _ hbf
  have hag0 : w2.anime_genres = [] := by
    obtain ⟨A, U, hA, hU, hw2⟩ := load_entities_ok_inv _ _ _ hle
    rw [hw2]
    simp [build_dimensions, emptyWarehouse]
  have hur0 : w2.user_anime_ratings = [] := by
    obtain ⟨A, U, hA, hU, hw2⟩ := load_entities_ok_inv _ _ _ hle
    rw [hw2]
    simp [build_dimensions, emptyWarehouse]
  subst hw
  constructor
  · intro g hg
    dsimp only at hg ⊢
    refine foldl_invariant (genre_insert_step w2)
      (fun t => ∀ x ∈ t, anime_id_present w2.anime x.anime_id = true
        ∧ 1 ≤ x.genre_id ∧ x.genre_id ≤ w2.genres.length)
      stg.stage_genres ?_ w2.anime_genres ?_ g hg
    · intro t s hs hP x hx
      unfold genre_insert_step at hx
      cases hres : genre_fact_of_stage w2 s with
      | none => rw [hres] at hx; exact hP x hx
      | some gf =>
        rw [hres] at hx
        rcases mem_insert_genre_fact t gf x hx with hx | rfl
        · exact hP x hx
        · obtain ⟨_, hp, hb⟩ := genre_fact_of_stage_resolved w2 s x hres
          exact ⟨hp, hb⟩
    · rw [hag0]; intro x hx; cases hx
  · intro r hr
    dsimp only at hr ⊢
    refine foldE_ok_invariant (rating_insert_step w2)
      (fun t => ∀ x ∈ t, user_id_present w2.users x.user_id = true
        ∧ anime_id_present w2.anime x.anime_id = true
        ∧ ∀ i, x.watch_status_id = some i →
            1 ≤ i ∧ i ≤ w2.watch_statuses.length)
      stg.stage_ratings ?_ w2.user_anime_ratings ur ?_ hur r hr
    · intro t s t' hs hP hok
      unfold rating_insert_step at hok
      cases hres : rating_fact_of_stage w2 s with
      | error e => rw [hres] at hok; exact absurd hok (by simp)
      | ok o =>
        rw [hres] at hok
        cases o with
        | none => cases hok; exact hP
        | some rf =>
          cases hok
          intro x hx
          rcases mem_insert_rating t rf x hx with hx | rfl
          · exact hP x hx
          · obtain ⟨_, _, hu, ha, _, i, hi, h1, h2⟩ :=
              rating_fact_of_stage_resolved w2 s x hres
            refine ⟨hu, ha, fun j hj => ?_⟩
            rw [hi] at hj
            cases hj
            exact ⟨h1, h2⟩
    · rw [hur0]; intro x hx; cases hx

/-- Witness for C2 on the sample run: the loaded genre tag references an
existing item and an existing genre row. -/
theorem facts_referentially_complete_witness :
    anime_id_present sample_w.anime "A1" = true
    ∧ 1 ≤ (1 : Nat) ∧ (1 : Nat) ≤ sample_w.genres.length :=
  (facts_referentially_complete sample_files sample_prior sample_stg
    sample_w (by rfl)).1 (GenreFactRow.mk "A1" 1) (by decide)

/-- C10: A staged rating whose watch status resolves to no dimension row
is dropped entirely rather than loaded with a null reference; every
rating row the Fact Builder inserts carries a non-null watch-status key;
and after a full run the empty string is never a watch-status value, so
every rating row in the warehouse has a non-null `watch_status_id` even
though the column is declared nullable. -/
theorem rating_watch_status_nonnull :
    (∀ (w : Warehouse) (s : StageRatingRow),
        s.WatchStatus.bind (dim_lookup w.watch_statuses) = none →
        rating_fact_of_stage w s = .ok none)
    ∧ (∀ (stg : Staging) (w res : Warehouse),
        build_facts stg w = .ok res →
        ∀ x ∈ res.user_anime_ratings, x ∉ w.user_anime_ratings →
          ∃ i, x.watch_status_id = some i)
    ∧ ∀ (files : InputFiles) (p : Staging × Warehouse) (stg : Staging)
        (w : Warehouse), run_pipeline files p = .ok (stg, w) →
        "" ∉ w.watch_statuses
        ∧ ∀ x ∈ w.user_anime_ratings, ∃ i, x.watch_status_id = some i := by
  have hdrop : ∀ (w : Warehouse) (s : StageRatingRow),
      s.WatchStatus.bind (dim_lookup w.watch_statuses) = none →
      rating_fact_of_stage w s = .ok none := by
    intro w s hb
    unfold rating_fact_of_stage
    rcases hu : s.UserID with _ | uid <;>
      rcases ha : s.AnimeID with _ | aid <;> rw [hb]
  have hins : ∀ (stg : Staging) (w res : Warehouse),
      build_facts stg w = .ok res →
      ∀ x ∈ res.user_anime_ratings, x ∉ w.user_anime_ratings →
        ∃ i, x.watch_status_id = some i := by
    intro stg w res hok x hx hnotin
    obtain ⟨ur, hur, hres⟩ := build_facts_ok_inv _ _ _ hok
    subst hres
    dsimp only at hx
    have := foldE_ok_invariant (rating_insert_step w)
      (fun t => ∀ y ∈ t, y ∈ w.user_anime_ratings
        ∨ ∃ i, y.watch_status_id = some i)
      stg.stage_ratings ?_ w.user_anime_ratings ur
      (fun y hy => Or.inl hy) hur x hx
    · rcases this with hy | hy
      · exact absurd hy hnotin
      · exact hy
    · intro t s t' hs hP hok'
      unfold rating_insert_step at hok'
      cases hresolve : rating_fact_of_stage w s with
      | error e => rw [hresolve] at hok'; exact absurd hok' (by simp)
      | ok o =>
        rw [hresolve] at hok'
        cases o with
        | none => cases hok'; exact hP
        | some rf =>
          cases hok'
          intro y hy
          rcases mem_insert_rating t rf y hy with hy | rfl
          · exact hP y hy
          · obtain ⟨_, _, _, _, _, i, hi, _⟩ :=
              rating_fact_of_stage_resolved w s y hresolve
            exact Or.inr ⟨i, hi⟩
  refine ⟨hdrop, hins, ?_⟩
  intro files p stg w h
  obtain ⟨w2, hle, hbf⟩ := run_pipeline_ok_inv files p stg w h
  obtain ⟨ur, hur, hw⟩ := build_facts_ok_inv _ _ _ hbf
  have hws : w2.watch_statuses = dim_insert_distinct []
      (stage_values StageRatingRow.WatchStatus stg.stage_ratings) := by
    obtain ⟨A, U, hA, hU, hw2⟩ := load_entities_ok_inv _ _ _ hle
    rw [hw2]
    simp [build_dimensions, emptyWarehouse]
  have hur0 : w2.user_anime_ratings = [] := by
    obtain ⟨A, U, hA, hU, hw2⟩ := load_entities_ok_inv _ _ _ hle
    rw [hw2]
    simp [build_dimensions, emptyWarehouse]
  subst hw
  constructor
  · dsimp only
    rw [hws]
    intro hmem
    rcases (mem_dim_insert_distinct _ _ _).mp hmem with hc | hc
    · cases hc
    · exact ne_empty_of_mem_stage_values _ _ _ hc rfl
  · intro x hx
    dsimp only at hx
    have := hins stg w2
      { w2 with
        anime_genres :=
          stg.stage_genres.foldl (genre_insert_step w2) w2.anime_genres,
        user_anime_ratings := ur }
      (by
        unfold build_facts
        rw [hur]) x (by dsimp only; exact hx)
    refine this ?_
    rw [hur0]
    intro hc
    cases hc

/-- Witness for C10 on the sample run: no empty watch status and both
inserted ratings (here one, after conflict-skip) carry a key. -/
theorem rating_watch_status_nonnull_witness :
    "" ∉ sample_w.watch_statuses
    ∧ ∀ x ∈ sample_w.user_anime_ratings,
        ∃ i, x.watch_status_id = some i :=
  rating_watch_status_nonnull.2.2 sample_files sample_prior sample_stg
    sample_w (by rfl)

/-- All three inner joins of the ratings insert-select succeed for a
staged row: non-null keys, a matching watch status, and both entities
present. -/
def rating_joins_resolve (w : Warehouse) (s : StageRatingRow) : Prop :=
  ∃ uid aid wsid, s.UserID = some uid ∧ s.AnimeID = some aid
    ∧ s.WatchStatus.bind (dim_lookup w.watch_statuses) = some wsid
    ∧ user_id_present w.users uid = true
    ∧ anime_id_present w.anime aid = true

/-- The ratings insert-select can only fail on a row that survived all
the joins, and then only through the score cast: the cast is evaluated
after the joins, never for dropped rows. -/
lemma rating_fact_of_stage_error_inv (w : Warehouse) (s : StageRatingRow)
    (e : ETLError) (h : rating_fact_of_stage w s = .error e) :
    rating_joins_resolve w s ∧ coerce_real s.UserScore = .error e := by
  unfold rating_fact_of_stage at h
  split at h
  next uid aid wsid hu ha hb =>
    split at h
    next hpres =>
      rw [Bool.and_eq_true] at hpres
      split at h
      next score hsc => exact absurd h (by simp)
      next e' hsc =>
        cases h
        exact ⟨⟨uid, aid, wsid, hu, ha, hb, hpres.1, hpres.2⟩, hsc⟩
    next hpres => exact absurd h (by simp)
  next => exact absurd h (by simp)

/-- A staged rating row whose joins fail, or whose score is coercible,
never aborts the statement. -/
lemma rating_insert_step_ok_of_safe (w : Warehouse) (s : StageRatingRow)
    (hsafe : rating_joins_resolve w s → coercible_real_field s.UserScore) :
    ∀ t, ∃ t', rating_insert_step w t s = .ok t' := by
  intro t
  unfold rating_insert_step
  cases hres : rating_fact_of_stage w s with
  | ok o =>
    cases o with
    | none => exact ⟨t, rfl⟩
    | some r => exact ⟨insert_rating t r, rfl⟩
  | error e =>
    obtain ⟨hjoins, hco⟩ := rating_fact_of_stage_error_inv w s e hres
    obtain ⟨o, ho⟩ := coerce_real_ok_of_coercible _ (hsafe hjoins)
    rw [ho] at hco
    exact absurd hco (by simp)

/-- The Fact Builder succeeds whenever every join-surviving rating row
has a coercible score; rows dropped by the joins never raise. -/
lemma build_facts_ok_of_safe (stg : Staging) (w : Warehouse)
    (hsafe : ∀ s ∈ stg.stage_ratings,
      rating_joins_resolve w s → coercible_real_field s.UserScore) :
    ∃ res, build_facts stg w = .ok res := by
  obtain ⟨ur, hur⟩ := foldE_ok_of_steps (rating_insert_step w)
    stg.stage_ratings
    (fun t s hs => rating_insert_step_ok_of_safe w s (hsafe s hs) t)
    w.user_anime_ratings
  exact ⟨_, by unfold build_facts; rw [hur]⟩

/-- C8: A staged fact row (genre tag or rating) whose referenced item or
user is absent from the entity tables yields zero fact rows for that
key and raises no error: the Fact Builder completes successfully and the
absent key appears in no fact row. -/
theorem orphan_facts_dropped (stg : Staging) (w : Warehouse)
    (aid uid : String)
    (hsafe : ∀ s ∈ stg.stage_ratings,
      rating_joins_resolve w s → coercible_real_field s.UserScore) :
    ∃ res, build_facts stg w = .ok res
      ∧ (anime_id_present w.anime aid = false →
          (∀ x ∈ w.anime_genres, x.anime_id ≠ aid) →
          ∀ x ∈ res.anime_genres, x.anime_id ≠ aid)
      ∧ (user_id_present w.users uid = false →
          (∀ x ∈ w.user_anime_ratings, x.user_id ≠ uid) →
          ∀ x ∈ res.user_anime_ratings, x.user_id ≠ uid)
      ∧ (anime_id_present w.anime aid = false →
          (∀ x ∈ w.user_anime_ratings, x.anime_id ≠ aid) →
          ∀ x ∈ res.user_anime_ratings, x.anime_id ≠ aid) := by
  obtain ⟨res, hok⟩ := build_facts_ok_of_safe stg w hsafe
  obtain ⟨ur, hur, hres⟩ := build_facts_ok_inv _ _ _ hok
  refine ⟨res, hok, ?_, ?_, ?_⟩
  · intro habs hpre x hx
    rw [hres] at hx
    dsimp only at hx
    refine foldl_invariant (genre_insert_step w)
      (fun t => ∀ y ∈ t, y.anime_id ≠ aid) stg.stage_genres ?_
      w.anime_genres hpre x hx
    intro t s hs hP y hy
    unfold genre_insert_step at hy
    cases hg : genre_fact_of_stage w s with
    | none => rw [hg] at hy; exact hP y hy
    | some gf =>
      rw [hg] at hy
      rcases mem_insert_genre_fact t gf y hy with hy | rfl
      · exact hP y hy
      · obtain ⟨_, hp, _⟩ := genre_fact_of_stage_resolved w s y hg
        intro heq
        rw [heq] at hp
        rw [hp] at habs
        exact absurd habs (by simp)
  · intro habs hpre x hx
    rw [hres] at hx
    dsimp only at hx
    refine foldE_ok_invariant (rating_insert_step w)
      (fun t => ∀ y ∈ t, y.user_id ≠ uid) stg.stage_ratings ?_
      w.user_anime_ratings ur hpre hur x hx
    intro t s t' hs hP hok'
    unfold rating_insert_step at hok'
    cases hr : rating_fact_of_stage w s with
    | error e => rw [hr] at hok'; exact absurd hok' (by simp)
    | ok o =>
      rw [hr] at hok'
      cases o with
      | none => cases hok'; exact hP
      | some rfact =>
        cases hok'
        intro y hy
        rcases mem_insert_rating t rfact y hy with hy | rfl
        · exact hP y hy
        · obtain ⟨_, _, hu, _, _, _⟩ :=
            rating_fact_of_stage_resolved w s y hr
          intro heq
          rw [heq] at hu
          rw [hu] at habs
          exact absurd habs (by simp)
  · intro habs hpre x hx
    rw [hres] at hx
    dsimp only at hx
    refine foldE_ok_invariant (rating_insert_step w)
      (fun t => ∀ y ∈ t, y.anime_id ≠ aid) stg.stage_ratings ?_
      w.user_anime_ratings ur hpre hur x hx
    intro t s t' hs hP hok'
    unfold rating_insert_step at hok'
    cases hr : rating_fact_of_stage w s with
    | error e => rw [hr] at hok'; exact absurd hok' (by simp)
    | ok o =>
      rw [hr] at hok'
      cases o with
      | none => cases hok'; exact hP
      | some rfact =>
        cases hok'
        intro y hy
        rcases mem_insert_rating t rfact y hy with hy | rfl
        · exact hP y hy
        · obtain ⟨_, _, _, ha, _, _⟩ :=
            rating_fact_of_stage_resolved w s y hr
          intro heq
          rw [heq] at ha
          rw [ha] at habs
          exact absurd habs (by simp)

/-- A null field is trivially integer-coercible. -/
lemma coercible_int_field_none : coercible_int_field none :=
  fun _ hv => nomatch hv

/-- A null field is trivially real-coercible. -/
lemma coercible_real_field_none : coercible_real_field none :=
  fun _ hv => nomatch hv

/-- The empty string is real-coercible (it becomes null, not a parse). -/
lemma coercible_real_field_empty : coercible_real_field (some "") :=
  fun _ hu hne => (hne (by injection hu with h; exact h.symm)).elim

/-- A value that parses is real-coercible. -/
lemma coercible_real_field_of_parses (v : String)
    (h : (parse_pg_real v).isSome) : coercible_real_field (some v) :=
  fun u hu _ => by injection hu with h'; exact h' ▸ h

/-- Staging exercising the orphan cases: a genre tag for an unknown item
and a rating from an unknown user. -/
def orphan_stg : Staging :=
  ⟨[], [StageGenreRow.mk (some "ZZ") (some "Action")], [],
   [StageRatingRow.mk (some "NoUser") (some "A1") (some "5") none
     (some "Completed")]⟩

/-- Witness for C8: over the sample warehouse, the orphan tag and the
orphan rating produce no fact rows and no error. -/
theorem orphan_facts_dropped_witness :
    ∃ res, build_facts orphan_stg sample_w = .ok res
      ∧ (anime_id_present sample_w.anime "ZZ" = false →
          (∀ x ∈ sample_w.anime_genres, x.anime_id ≠ "ZZ") →
          ∀ x ∈ res.anime_genres, x.anime_id ≠ "ZZ")
      ∧ (user_id_present sample_w.users "NoUser" = false →
          (∀ x ∈ sample_w.user_anime_ratings, x.user_id ≠ "NoUser") →
          ∀ x ∈ res.user_anime_ratings, x.user_id ≠ "NoUser")
      ∧ (anime_id_present sample_w.anime "ZZ" = false →
          (∀ x ∈ sample_w.user_anime_ratings, x.anime_id ≠ "ZZ") →
          ∀ x ∈ res.user_anime_ratings, x.anime_id ≠ "ZZ") :=
  orphan_facts_dropped orphan_stg sample_w "ZZ" "NoUser" (by
    intro s hs _
    have hs' : s = StageRatingRow.mk (some "NoUser") (some "A1")
        (some "5") none (some "Completed") := by
      simpa [orphan_stg] using hs
    subst hs'
    exact coercible_real_field_of_parses "5" (by decide))

/-- A successful anime projection keeps the staged natural key. -/
lemma anime_row_of_stage_ok_inv (w : Warehouse) (s : StageAnimeRow)
    (a : AnimeRow) (h : anime_row_of_stage w s = .ok a) :
    s.AnimeID = some a.anime_id := by
  unfold anime_row_of_stage at h
  split at h
  next =>
    split at h
    next aid tl haid htl => cases h; exact haid
    next => exact absurd h (by simp)
  next => exact absurd h (by simp)
  next => exact absurd h (by simp)
  next => exact absurd h (by simp)

/-- Conflict-skip insertion never removes a present natural key. -/
lemma insert_anime_preserves (t : List AnimeRow) (a : AnimeRow)
    (x : String) (h : anime_id_present t x = true) :
    anime_id_present (insert_anime t a) x = true := by
  unfold insert_anime
  split
  · exact h
  · unfold anime_id_present at h ⊢
    rw [List.any_append, h]
    rfl

/-- After a conflict-skip insertion the inserted row's natural key is
present (it was already there, or the row was appended). -/
lemma insert_anime_adds (t : List AnimeRow) (a : AnimeRow) :
    anime_id_present (insert_anime t a) a.anime_id = true := by
  unfold insert_anime
  split
  next h => exact h
  next h =>
    unfold anime_id_present
    rw [List.any_append]
    simp

/-- After a successful anime insert-select, every staged row's natural
key is present in the entity table (inserted now, or already there). -/
lemma load_anime_fold_ids (w : Warehouse) :
    ∀ (l : List StageAnimeRow) (t A : List AnimeRow),
      foldE (anime_insert_step w) t l = .ok A →
      ∀ s ∈ l, ∀ aid, s.AnimeID = some aid →
        anime_id_present A aid = true := by
  intro l
  induction l with
  | nil => intro t A _ s hs; cases hs
  | cons s0 l ih =>
    intro t A h s hs aid haid
    obtain ⟨t1, hstep, hrest⟩ := foldE_cons_ok _ s0 l t A h
    rcases List.mem_cons.mp hs with rfl | hs
    · unfold anime_insert_step at hstep
      cases hrow : anime_row_of_stage w s with
      | error e => rw [hrow] at hstep; exact absurd hstep (by simp)
      | ok a =>
        rw [hrow] at hstep
        cases hstep
        have hsa := anime_row_of_stage_ok_inv w s a hrow
        rw [haid] at hsa
        cases Option.some.inj hsa
        refine foldE_ok_invariant (anime_insert_step w)
          (fun t => anime_id_present t a.anime_id = true) l ?_
          (insert_anime t a) A (insert_anime_adds t a) hrest
        intro b s1 b1 _ hP hok1
        unfold anime_insert_step at hok1
        cases hrow1 : anime_row_of_stage w s1 with
        | error e => rw [hrow1] at hok1; exact absurd hok1 (by simp)
        | ok a1 =>
          rw [hrow1] at hok1
          cases hok1
          exact insert_anime_preserves b a1 _ hP
    · exact ih t1 A hrest s hs aid haid

/-- C4: During the entity load, a numeric field supplied as the empty
string is stored as null and the load still succeeds, while a non-empty
value that fails to parse as its declared numeric type — malformed text
or a value outside the int4/float4 range — makes the whole entity load
abort with `ValueCoercionError` rather than dropping the row.  (Key columns are assumed non-null: a null `anime_id`, `title`,
`user_id` or `user_name` would abort with a not-null violation instead.) -/
theorem entity_numeric_coercion (stg : Staging) (w : Warehouse)
    (hnn : ∀ s ∈ stg.stage_anime, s.AnimeID ≠ none ∧ s.AnimeTitle ≠ none)
    (hnnu : ∀ u ∈ stg.stage_users, u.UserID ≠ none ∧ u.UserName ≠ none) :
    ((∀ s ∈ stg.stage_anime, coercible_int_field s.Episodes
        ∧ coercible_real_field s.OverallScore
        ∧ coercible_int_field s.PopularityRank) →
      ∃ w', load_entities stg w = .ok w'
        ∧ (∀ s ∈ stg.stage_anime, ∀ aid, s.AnimeID = some aid →
            anime_id_present w'.anime aid = true)
        ∧ ∀ s ∈ stg.stage_anime, s.OverallScore = some "" →
            ∃ a, anime_row_of_stage w s = .ok a ∧ a.overall_score = none)
    ∧ ((∃ s ∈ stg.stage_anime,
          (∃ v, s.Episodes = some v ∧ v ≠ "" ∧ parse_pg_int v = none)
          ∨ (∃ v, s.OverallScore = some v ∧ v ≠ ""
              ∧ parse_pg_real v = none)
          ∨ (∃ v, s.PopularityRank = some v ∧ v ≠ ""
              ∧ parse_pg_int v = none)) →
      load_entities stg w = .error .ValueCoercionError) := by
  constructor
  · intro hco
    obtain ⟨A, hA⟩ := foldE_ok_of_steps (anime_insert_step w)
      stg.stage_anime
      (fun t s hs => by
        obtain ⟨a, ha, _⟩ := anime_row_of_stage_ok w s (hnn s hs).1
          (hnn s hs).2 (hco s hs).1 (hco s hs).2.1 (hco s hs).2.2
        exact ⟨insert_anime t a, by unfold anime_insert_step; rw [ha]⟩)
      w.anime
    obtain ⟨U, hU⟩ := foldE_ok_of_steps (user_insert_step w)
      stg.stage_users
      (fun t s hs => by
        obtain ⟨u, hu⟩ := user_row_of_stage_ok w s (hnnu s hs).1
          (hnnu s hs).2
        exact ⟨insert_user t u, by unfold user_insert_step; rw [hu]⟩)
      w.users
    refine ⟨_, by unfold load_entities; rw [hA, hU], ?_, ?_⟩
    · intro s hs aid haid
      dsimp only
      exact load_anime_fold_ids w stg.stage_anime w.anime A hA s hs aid haid
    intro s hs hscore
    obtain ⟨a, ha, hsc⟩ := anime_row_of_stage_ok w s (hnn s hs).1
      (hnn s hs).2 (hco s hs).1 (hco s hs).2.1 (hco s hs).2.2
    refine ⟨a, ha, ?_⟩
    rw [hscore] at hsc
    have h0 : coerce_real (some "") = .ok (none : Option PgReal) := rfl
    rw [h0] at hsc
    exact (Except.ok.inj hsc).symm
  · rintro ⟨s₀, hs₀, hbad⟩
    have hbad' : anime_row_of_stage w s₀ = .error .ValueCoercionError := by
      apply anime_row_of_stage_bad
      rcases hbad with ⟨v, hv, hne, hp⟩ | ⟨v, hv, hne, hp⟩ | ⟨v, hv, hne, hp⟩
      · exact Or.inl (coerce_int_error_of_bad _ v hv hne hp)
      · exact Or.inr (Or.inl (coerce_real_error_of_bad _ v hv hne hp))
      · exact Or.inr (Or.inr (coerce_int_error_of_bad _ v hv hne hp))
    have hfold : foldE (anime_insert_step w) w.anime stg.stage_anime
        = .error .ValueCoercionError := by
      refine foldE_error_of_exists (anime_insert_step w) stg.stage_anime
        .ValueCoercionError ?_ ⟨s₀, hs₀, fun b => by
          unfold anime_insert_step; rw [hbad']⟩ w.anime
      intro b s hs
      rcases anime_row_of_stage_shape w s (hnn s hs).1 (hnn s hs).2 with
        ⟨a, ha⟩ | ha
      · exact Or.inr ⟨insert_anime b a, by
          unfold anime_insert_step; rw [ha]⟩
      · exact Or.inl (by unfold anime_insert_step; rw [ha])
    unfold load_entities
    rw [hfold]

/-- A staged item whose optional score is the empty string. -/
def c4_good_row : StageAnimeRow :=
  ⟨some "A1", some "X", some "TV", none, none, none, none, none, none,
   none, some "", none⟩

/-- A staged item whose score is a non-empty non-numeric string. -/
def c4_bad_row : StageAnimeRow :=
  ⟨some "A2", some "Y", some "TV", none, none, none, none, none, none,
   none, some "oops", none⟩

/-- Staging holding only the empty-score item. -/
def c4_good_stg : Staging := ⟨[c4_good_row], [], [], []⟩

/-- Staging holding only the malformed-score item. -/
def c4_bad_stg : Staging := ⟨[c4_bad_row], [], [], []⟩

/-- A staged item whose episode count exceeds the int4 range. -/
def c4_range_row : StageAnimeRow :=
  ⟨some "A3", some "Z", some "TV", some "3000000000", none, none, none,
   none, none, none, none, none⟩

/-- Staging holding only the out-of-range-episodes item. -/
def c4_range_stg : Staging := ⟨[c4_range_row], [], [], []⟩

/-- Witness for C4: the empty-score row loads with a null score, while
the malformed-score row and the out-of-int4-range episode count each
abort the whole entity load. -/
theorem entity_numeric_coercion_witness :
    (∃ w', load_entities c4_good_stg emptyWarehouse = .ok w'
      ∧ (∀ s ∈ c4_good_stg.stage_anime, ∀ aid, s.AnimeID = some aid →
          anime_id_present w'.anime aid = true)
      ∧ ∀ s ∈ c4_good_stg.stage_anime, s.OverallScore = some "" →
          ∃ a, anime_row_of_stage emptyWarehouse s = .ok a
            ∧ a.overall_score = none)
    ∧ load_entities c4_bad_stg emptyWarehouse
        = .error .ValueCoercionError
    ∧ load_entities c4_range_stg emptyWarehouse
        = .error .ValueCoercionError :=
  ⟨(entity_numeric_coercion c4_good_stg emptyWarehouse (by decide)
      (by decide)).1
    (by
      intro s hs
      have hs' : s = c4_good_row := by simpa [c4_good_stg] using hs
      subst hs'
      exact ⟨coercible_int_field_none, coercible_real_field_empty,
        coercible_int_field_none⟩),
   (entity_numeric_coercion c4_bad_stg emptyWarehouse (by decide)
      (by decide)).2
    ⟨c4_bad_row, by simp [c4_bad_stg],
      Or.inr (Or.inl ⟨"oops", rfl, by decide, by decide⟩)⟩,
   (entity_numeric_coercion c4_range_stg emptyWarehouse (by decide)
      (by decide)).2
    ⟨c4_range_row, by simp [c4_range_stg],
      Or.inl ⟨"3000000000", rfl, by decide, by decide⟩⟩⟩

/-- C5: When the staged ratings contain two rows for the same
`(user_id, item_id)` pair — say with different scores — and the first of
them resolves, then after the Fact Builder exactly one rating row exists
for that pair, holding the first-encountered (coerced) score; the later
duplicate is dropped by the primary-key conflict-skip, not an error. -/
theorem duplicate_rating_first_wins (stg : Staging) (w w' : Warehouse)
    (U A : String) (r1 r2 : StageRatingRow) (row1 : RatingRow)
    (l1 l2 l3 : List StageRatingRow)
    (hsplit : stg.stage_ratings = l1 ++ r1 :: (l2 ++ r2 :: l3))
    (hk1 : r1.UserID = some U) (hk1a : r1.AnimeID = some A)
    (_hk2 : r2.UserID = some U) (_hk2a : r2.AnimeID = some A)
    (_hv : ∃ v1 v2, r1.UserScore = some v1 ∧ r2.UserScore = some v2
      ∧ v1 ≠ v2)
    (hfirst : ∀ r ∈ l1, ¬(r.UserID = some U ∧ r.AnimeID = some A))
    (hpre : ∀ x ∈ w.user_anime_ratings,
      ¬(x.user_id = U ∧ x.anime_id = A))
    (hres1 : rating_fact_of_stage w r1 = .ok (some row1))
    (hok : build_facts stg w = .ok w') :
    w'.user_anime_ratings.filter
        (fun x => x.user_id == U && x.anime_id == A) = [row1]
      ∧ coerce_real r1.UserScore = .ok row1.user_score := by
  obtain ⟨ur, hur, hw'⟩ := build_facts_ok_inv _ _ _ hok
  rw [hsplit] at hur
  obtain ⟨t1, h1, hrest⟩ :=
    foldE_append_ok (rating_insert_step w) l1 (r1 :: (l2 ++ r2 :: l3))
      w.user_anime_ratings ur hur
  have ht1 : ∀ x ∈ t1, ¬(x.user_id = U ∧ x.anime_id = A) := by
    refine foldE_ok_invariant (rating_insert_step w)
      (fun t => ∀ x ∈ t, ¬(x.user_id = U ∧ x.anime_id = A)) l1 ?_
      w.user_anime_ratings t1 hpre h1
    intro t s t' hs hP hok'
    unfold rating_insert_step at hok'
    cases hr : rating_fact_of_stage w s with
    | error e => rw [hr] at hok'; exact absurd hok' (by simp)
    | ok o =>
      rw [hr] at hok'
      cases o with
      | none => cases hok'; exact hP
      | some rfact =>
        cases hok'
        intro y hy
        rcases mem_insert_rating t rfact y hy with hy | rfl
        · exact hP y hy
        · obtain ⟨hsu, hsa, _⟩ := rating_fact_of_stage_resolved w s y hr
          rintro ⟨hyu, hya⟩
          rw [hyu] at hsu
          rw [hya] at hsa
          exact hfirst s hs ⟨hsu, hsa⟩
  obtain ⟨hru, hra, hup, hap, hcoer, _⟩ :=
    rating_fact_of_stage_resolved w r1 row1 hres1
  have hkey_u : row1.user_id = U := by
    rw [hk1] at hru
    exact (Option.some.inj hru).symm
  have hkey_a : row1.anime_id = A := by
    rw [hk1a] at hra
    exact (Option.some.inj hra).symm
  obtain ⟨t2, hstep1, hrest2⟩ :=
    foldE_cons_ok (rating_insert_step w) r1 (l2 ++ r2 :: l3) t1 ur hrest
  have ht2 : t2 = insert_rating t1 row1 := by
    unfold rating_insert_step at hstep1
    rw [hres1] at hstep1
    exact (Except.ok.inj hstep1).symm
  have hnoconf : (t1.any (fun x => x.user_id == row1.user_id
      && x.anime_id == row1.anime_id)) = false := by
    rw [List.any_eq_false]
    intro x hx
    rw [hkey_u, hkey_a]
    intro hc
    rw [Bool.and_eq_true, beq_iff_eq, beq_iff_eq] at hc
    exact ht1 x hx hc
  have ht2' : t2 = t1 ++ [row1] := by
    rw [ht2]
    unfold insert_rating
    rw [hnoconf]
    rfl
  have hf2 : t2.filter (fun x => x.user_id == U && x.anime_id == A)
      = [row1] := by
    rw [ht2', List.filter_append]
    have hf1 : t1.filter (fun x => x.user_id == U && x.anime_id == A)
        = [] := by
      rw [List.filter_eq_nil_iff]
      intro x hx hc
      rw [Bool.and_eq_true, beq_iff_eq, beq_iff_eq] at hc
      exact ht1 x hx hc
    rw [hf1]
    simp [hkey_u, hkey_a]
  have hfinal : ur.filter (fun x => x.user_id == U && x.anime_id == A)
      = [row1] := by
    refine foldE_ok_invariant (rating_insert_step w)
      (fun t => t.filter (fun x => x.user_id == U && x.anime_id == A)
        = [row1]) (l2 ++ r2 :: l3) ?_ t2 ur hf2 hrest2
    intro t s t' hs hP hok'
    unfold rating_insert_step at hok'
    cases hr : rating_fact_of_stage w s with
    | error e => rw [hr] at hok'; exact absurd hok' (by simp)
    | ok o =>
      rw [hr] at hok'
      cases o with
      | none => cases hok'; exact hP
      | some rfact =>
        cases hok'
        unfold insert_rating
        cases hconf : (t.any (fun x => x.user_id == rfact.user_id
            && x.anime_id == rfact.anime_id)) with
        | true => rw [if_pos rfl]; exact hP
        | false =>
          have hrow1_mem : row1 ∈ t := by
            have : row1 ∈ t.filter
                (fun x => x.user_id == U && x.anime_id == A) := by
              rw [hP]; exact List.mem_singleton_self row1
            exact List.mem_of_mem_filter this
          have hknot : (rfact.user_id == U && rfact.anime_id == A)
              = false := by
            cases hk : (rfact.user_id == U && rfact.anime_id == A) with
            | false => rfl
            | true =>
              exfalso
              rw [Bool.and_eq_true, beq_iff_eq, beq_iff_eq] at hk
              have : t.any (fun x => x.user_id == rfact.user_id
                  && x.anime_id == rfact.anime_id) = true := by
                rw [List.any_eq_true]
                refine ⟨row1, hrow1_mem, ?_⟩
                rw [Bool.and_eq_true, beq_iff_eq, beq_iff_eq]
                rw [hkey_u, hkey_a, hk.1, hk.2]
                exact ⟨rfl, rfl⟩
              rw [this] at hconf
              exact absurd hconf (by simp)
          rw [if_neg (by simp), List.filter_append, hP]
          simp [hknot]
  rw [hw']
  exact ⟨hfinal, hcoer⟩

/-- A small warehouse holding the entities and watch status the C5
scenario needs. -/
def c5_w : Warehouse :=
  { emptyWarehouse with
    watch_statuses := ["Completed"],
    anime := [⟨"A1", "X", none, none, none, none, none, none, none,
      none, none, none⟩],
    users := [⟨"U1", "bob", none, none, none⟩] }

/-- First staged rating for the pair `(U1, A1)`, score `7`. -/
def c5_r1 : StageRatingRow :=
  ⟨some "U1", some "A1", some "7", none, some "Completed"⟩

/-- Second staged rating for the same pair, score `3`. -/
def c5_r2 : StageRatingRow :=
  ⟨some "U1", some "A1", some "3", none, some "Completed"⟩

/-- Staging holding exactly the two duplicate ratings. -/
def c5_stg : Staging := ⟨[], [], [], [c5_r1, c5_r2]⟩

/-- The fact row the first staged rating resolves to. -/
def c5_row1 : RatingRow := ⟨"U1", "A1", some (PgReal.finite 7), none, some 1⟩

/-- The warehouse after the Fact Builder runs on the duplicate pair. -/
def c5_out : Warehouse := (build_facts c5_stg c5_w).toOption.getD c5_w

/-- Witness for C5: the pair `(U1, A1)` ends with exactly one rating
row, carrying the first-encountered score `7`. -/
theorem duplicate_rating_first_wins_witness :
    c5_out.user_anime_ratings.filter
        (fun x => x.user_id == "U1" && x.anime_id == "A1") = [c5_row1]
      ∧ coerce_real c5_r1.UserScore = .ok c5_row1.user_score :=
  duplicate_rating_first_wins c5_stg c5_w c5_out "U1" "A1" c5_r1 c5_r2
    c5_row1 [] [] [] rfl rfl rfl rfl rfl
    ⟨"7", "3", rfl, rfl, by decide⟩
    (fun r hr => absurd hr (List.not_mem_nil r))
    (by intro x hx; exact absurd hx (by simp [c5_w, emptyWarehouse]))
    (by rfl) (by rfl)
